import Mathlib

/-!
BM1370 ASIC driver: frame codec, job slots, result decoding, PLL search

A shallow embedding of `components/asic/bm1370.c`.

Conventions of the embedding:

* a byte is a `Nat`; every store into a `uint8_t` object is written `% 256`,
  every `uint16_t` value `% 65536`, every `uint32_t` value `% 4294967296`;
* a byte buffer is a `List Nat`; `malloc n` is a list of `n` zero bytes and a
  store is `List.set` (a store outside the buffer, undefined in C, leaves the
  list as it is);
* the serial transport is the list of frames handed to `SERIAL_send`, oldest
  first;
* `crc5` and `crc16_false` live in `crc.h`, outside this unit; they are
  parameters of everything that builds a frame;
* the target is little-endian (ESP32), so a `uint32_t` copied with `memcpy`
  lands least-significant byte first and `ntohl`/`ntohs` swap bytes;
* the PLL search is embedded twice: with the `float`/`double` roundings of the code
  (names ending in `_f32`), and with every rounding left out, in exact arithmetic over
  `ℚ`, for the properties that are stated over exact arithmetic.
-/

namespace BM1370

/-! ## Constants -/

def TYPE_JOB : Nat := 0x20
def TYPE_CMD : Nat := 0x40

def GROUP_SINGLE : Nat := 0x00
def GROUP_ALL : Nat := 0x10

def CMD_SETADDRESS : Nat := 0x00
def CMD_WRITE : Nat := 0x01
def CMD_READ : Nat := 0x02
def CMD_INACTIVE : Nat := 0x03

/-! ## Byte buffers -/

/-- Result of `malloc n`: a buffer of `n` bytes (contents taken as zero). -/
def malloc (n : Nat) : List Nat := List.replicate n 0

/-- Store `buf[i] = v` into a byte buffer. -/
def poke (buf : List Nat) (i v : Nat) : List Nat := buf.set i (v % 256)

/-- Copy the bytes of `src` to `buf` from offset `off` on, one store each. -/
def writeBytes : List Nat → Nat → List Nat → List Nat
  | buf, _, [] => buf
  | buf, off, b :: bs => writeBytes (buf.set off b) (off + 1) bs

/-- Model of `memcpy(buf + off, src, n)`. -/
def memcpy (buf : List Nat) (off : Nat) (src : List Nat) (n : Nat) : List Nat :=
  writeBytes buf off (src.take n)

/-- The `n` bytes of `buf` from offset `off` on: what a callee given
`(buf + off, n)` reads. -/
def slice (buf : List Nat) (off n : Nat) : List Nat := (buf.drop off).take n

/-! ## Frame codec -/

/-- Packet shapes told apart by header bit `TYPE_JOB`. -/
inductive packet_type_t
  | JOB_PACKET
  | CMD_PACKET
  deriving DecidableEq, Repr

open packet_type_t

/-- The buffer `_send_BM1370` hands to `SERIAL_send`, with its length argument
applied: the first `total_length` bytes of `buf`. -/
def frame_BM1370 (crc5 crc16_false : List Nat → Nat)
    (header : Nat) (data : List Nat) (data_len : Nat) : List Nat :=
  let packet_type := if header &&& TYPE_JOB ≠ 0 then JOB_PACKET else CMD_PACKET
  let total_length :=
    (if packet_type = JOB_PACKET then data_len + 6 else data_len + 5) % 256
  let buf := malloc total_length
  let buf := poke buf 0 0x55
  let buf := poke buf 1 0xAA
  let buf := poke buf 2 header
  let buf := poke buf 3 (if packet_type = JOB_PACKET then data_len + 4 else data_len + 3)
  let buf := memcpy buf 4 data data_len
  let buf :=
    if packet_type = JOB_PACKET then
      let crc16_total := crc16_false (slice buf 2 (data_len + 2)) % 65536
      let buf := poke buf (4 + data_len) ((crc16_total >>> 8) &&& 0xFF)
      poke buf (5 + data_len) (crc16_total &&& 0xFF)
    else
      poke buf (4 + data_len) (crc5 (slice buf 2 (data_len + 2)))
  buf.take total_length

/-- Model of `_send_BM1370`: builds the frame and hands it to the transport
`tx` (the frames sent so far). -/
def _send_BM1370 (crc5 crc16_false : List Nat → Nat)
    (header : Nat) (data : List Nat) (data_len : Nat) (tx : List (List Nat)) :
    List (List Nat) :=
  tx ++ [frame_BM1370 crc5 crc16_false header data data_len]

/-! ## Work units, job slots and driver state -/

/-- Modelled from the spec: the work unit `bm_job` of `mining.h` (not part of this unit),
reduced to the fields `BM1370_send_work` and `BM1370_process_work` read: 32-bit starting
nonce, target ("nbits"), ntime and version, 32-byte merkle root and previous block hash. -/
structure bm_job where
  starting_nonce : Nat
  target : Nat
  ntime : Nat
  merkle_root_be : List Nat
  prev_block_hash_be : List Nat
  version : Nat
  deriving DecidableEq, Repr

/-- The `task_result` filled by `BM1370_process_work` (fields as the code assigns them). -/
structure task_result where
  job_id : Nat
  nonce : Nat
  rolled_version : Nat
  deriving DecidableEq, Repr

/-- Observable steps of the send and receive paths, in program order. -/
inductive Event
  /-- Call `free_bm_job(p)`. -/
  | free (p : bm_job)
  /-- Store `active_jobs[j] = p`. -/
  | store (j : Nat) (p : bm_job)
  /-- Call `pthread_mutex_lock(&valid_jobs_lock)`. -/
  | lock
  /-- Call `pthread_mutex_unlock(&valid_jobs_lock)`. -/
  | unlock
  /-- Store `valid_jobs[j] = v`. -/
  | write_valid (j v : Nat)
  /-- Read of `valid_jobs[j]`. -/
  | read_valid (j : Nat)
  /-- The `ESP_LOGI` line of `BM1370_process_work`: job id, core id, small core id,
  version bits. -/
  | log_result (job_id core_id small_core_id version_bits : Nat)
  deriving DecidableEq, Repr

/-- The state the send and receive paths work on: the static counter `id`, the two tables
of `GlobalState` (a null pointer is `none`), the frames handed to the transport and the
trace of steps taken so far. -/
structure State where
  id : Nat
  active_jobs : Nat → Option bm_job
  valid_jobs : Nat → Nat
  tx : List (List Nat)
  trace : List Event

/-- State at start-up: `id = 0`, every slot null, every flag 0, nothing sent. -/
def State.initial : State :=
  { id := 0, active_jobs := fun _ => none, valid_jobs := fun _ => 0, tx := [], trace := [] }

/-- Bytes of a `uint32_t` in memory on the little-endian target. -/
def le32 (x : Nat) : List Nat :=
  [x % 256, x / 256 % 256, x / 65536 % 256, x / 16777216 % 256]

/-- Read `buf[i]` (a byte never written reads as 0). -/
def rd8 (buf : List Nat) (i : Nat) : Nat := buf.getD i 0

/-- Load a `uint16_t` field at offset `i` on the little-endian target. -/
def rd16 (buf : List Nat) (i : Nat) : Nat := rd8 buf i + 256 * rd8 buf (i + 1)

/-- Load a `uint32_t` field at offset `i` on the little-endian target. -/
def rd32 (buf : List Nat) (i : Nat) : Nat :=
  rd8 buf i + 256 * rd8 buf (i + 1) + 65536 * rd8 buf (i + 2) + 16777216 * rd8 buf (i + 3)

/-- Byte swap of a 32-bit value (`ntohl` on the little-endian target). -/
def ntohl (x : Nat) : Nat :=
  x % 256 * 16777216 + x / 256 % 256 * 65536 + x / 65536 % 256 * 256 + x / 16777216 % 256

/-- Byte swap of a 16-bit value (`ntohs` on the little-endian target). -/
def ntohs (x : Nat) : Nat := x % 256 * 256 + x / 256 % 256

/-- The 82 bytes of the packed `BM1370_job` built by `BM1370_send_work`. -/
def BM1370_job_bytes (job_id : Nat) (next_bm_job : bm_job) : List Nat :=
  let job := malloc 82
  let job := poke job 0 job_id
  let job := poke job 1 0x01
  let job := memcpy job 2 (le32 next_bm_job.starting_nonce) 4
  let job := memcpy job 6 (le32 next_bm_job.target) 4
  let job := memcpy job 10 (le32 next_bm_job.ntime) 4
  let job := memcpy job 14 next_bm_job.merkle_root_be 32
  let job := memcpy job 46 next_bm_job.prev_block_hash_be 32
  memcpy job 78 (le32 next_bm_job.version) 4

/-- Model of `BM1370_send_work` for a non-null `next_bm_job`. -/
def BM1370_send_work (crc5 crc16_false : List Nat → Nat) (st : State) (next_bm_job : bm_job) :
    State :=
  let id := (st.id + 24) % 128 % 256
  let job_id := id
  let job := BM1370_job_bytes job_id next_bm_job
  let freed : List Event :=
    match st.active_jobs job_id with
    | some p => [Event.free p]
    | none => []
  let active_jobs := Function.update st.active_jobs job_id (some next_bm_job)
  let valid_jobs := Function.update st.valid_jobs job_id 1
  { id := id
    active_jobs := active_jobs
    valid_jobs := valid_jobs
    tx := _send_BM1370 crc5 crc16_false (TYPE_JOB ||| GROUP_SINGLE ||| CMD_WRITE) job 82 st.tx
    trace := st.trace ++ freed ++
      [Event.store job_id next_bm_job, Event.lock, Event.write_valid job_id 1, Event.unlock] }

/-- What a call of `BM1370_process_work` ends in: `NULL`, a pointer to the static `result`
(given by its contents), or a load through a null `active_jobs` slot. -/
inductive Outcome
  | null
  | result (r : task_result)
  | fault
  deriving DecidableEq, Repr

/-- Model of `BM1370_process_work`.  `rx` is what `receive_work` did: `none` for
`ESP_FAIL`, else the bytes it put into the zero-initialised 11-byte `asic_result`. -/
def BM1370_process_work (st : State) (rx : Option (List Nat)) : State × Outcome :=
  match rx with
  | none => (st, Outcome.null)
  | some bytes =>
    let asic_result := memcpy (malloc 11) 0 bytes 11
    let nonce := rd32 asic_result 2
    let reply_id := rd8 asic_result 7
    let version := rd16 asic_result 8
    let job_id := ((reply_id &&& 0xf0) >>> 1) % 256
    let core_id := ((ntohl nonce >>> 25) &&& 0x7f) % 256
    let small_core_id := (reply_id &&& 0x0f) % 256
    let version_bits := (ntohs version <<< 13) % 4294967296
    let st := { st with trace := st.trace ++
      [Event.log_result job_id core_id small_core_id version_bits, Event.read_valid job_id] }
    if st.valid_jobs job_id = 0 then (st, Outcome.null)
    else
      match st.active_jobs job_id with
      | none => (st, Outcome.fault)
      | some p =>
        let rolled_version := p.version ||| version_bits
        (st, Outcome.result
          { job_id := job_id, nonce := nonce, rolled_version := rolled_version })

/-- A work unit with version `0x20000000`, used in the worked decoding example. -/
def example_job : bm_job :=
  { starting_nonce := 0, target := 0x1705ae3a, ntime := 0x647025b5,
    merkle_root_be := List.replicate 32 0xAB, prev_block_hash_be := List.replicate 32 0xCD,
    version := 0x20000000 }

/-- A state in which job id `0x18` is marked valid and holds `example_job`. -/
def example_state : State :=
  { State.initial with
    active_jobs := fun j => if j = 0x18 then some example_job else none
    valid_jobs := fun j => if j = 0x18 then 1 else 0 }

/-- A run of successive `BM1370_send_work` calls, one for each work unit of `ws`. -/
def send_many (crc5 crc16_false : List Nat → Nat) (st : State) (ws : List bm_job) : State :=
  ws.foldl (BM1370_send_work crc5 crc16_false) st

/-! ## Chip addressing -/

/-- Model of `_set_chip_address(chipAddr)`; the argument is converted to `uint8_t`. -/
def _set_chip_address (crc5 crc16_false : List Nat → Nat) (chipAddr : Nat)
    (tx : List (List Nat)) : List (List Nat) :=
  let chipAddr := chipAddr % 256
  let read_address := [chipAddr, 0x00]
  _send_BM1370 crc5 crc16_false (TYPE_CMD ||| GROUP_SINGLE ||| CMD_SETADDRESS) read_address 2 tx

/-- The 8-bit `address_interval` of `BM1370_init`: `(uint8_t) (256 / chip_counter)`. -/
def address_interval (chip_counter : Nat) : Nat := (256 / chip_counter) % 256

/-- The addressing loop of `BM1370_init`,
`for (uint8_t i = 0; i < chip_counter; i++) _set_chip_address(i * address_interval);`
run from loop counter `i` for at most `fuel` evaluations of the loop condition; `none`
when the fuel runs out before the loop ends.  The counter is 8 bits wide. -/
def address_loop (crc5 crc16_false : List Nat → Nat) (chip_counter interval : Nat) :
    Nat → Nat → List (List Nat) → Option (List (List Nat))
  | 0, _, _ => none
  | fuel + 1, i, tx =>
    if i < chip_counter then
      address_loop crc5 crc16_false chip_counter interval fuel ((i + 1) % 256)
        (_set_chip_address crc5 crc16_false (i * interval) tx)
    else some tx

/-! ## Frequency synthesizer in exact arithmetic -/

/-- The C library `round`: nearest integer, halfway cases away from zero. -/
def c_round (x : ℚ) : Int :=
  if 0 ≤ x then Rat.floor (x + 1 / 2) else -Rat.floor (-x + 1 / 2)

/-- Local variables of the divider search of `BM1370_send_hash_frequency`. -/
structure PllState where
  fb_divider : Nat
  post_divider1 : Nat
  post_divider2 : Nat
  ref_divider : Nat
  min_difference : ℚ
  newf : ℚ
  deriving DecidableEq

/-- Values of the locals before the search. -/
def PllState.initial : PllState :=
  { fb_divider := 0, post_divider1 := 0, post_divider2 := 0, ref_divider := 0,
    min_difference := 10, newf := 200 }

/-- The acceptance ceiling `max_diff`. -/
def max_diff : ℚ := 1

/-- The `temp_fb_divider` of one combination of dividers in exact arithmetic: the
expression of line 160 with no rounding of the product or of the quotient (the code rounds
them, see `temp_fb_divider_f32`). -/
def temp_fb_divider (target_freq : ℚ) (refdiv_loop postdiv1_loop postdiv2_loop : Nat) : Int :=
  c_round (((postdiv1_loop * postdiv2_loop : Nat) : ℚ) * target_freq * (refdiv_loop : ℚ) / 25)

/-- The `temp_freq` of one combination of dividers and its feedback divider in exact
arithmetic: the expression of line 163 with no rounding (see `temp_freq_f32`). -/
def temp_freq (fb : Int) (refdiv_loop postdiv1_loop postdiv2_loop : Nat) : ℚ :=
  25 * (fb : ℚ) / ((refdiv_loop * postdiv2_loop * postdiv1_loop : Nat) : ℚ)

/-- Body of the innermost loop of the divider search in exact arithmetic (see
`pll_body_f32` for the roundings of the code). -/
def pll_body (target_freq : ℚ) (refdiv_loop postdiv1_loop postdiv2_loop : Nat)
    (s : PllState) : PllState :=
  if postdiv1_loop ≥ postdiv2_loop then
    let fb := temp_fb_divider target_freq refdiv_loop postdiv1_loop postdiv2_loop
    if fb ≥ 0xa0 ∧ fb ≤ 0xef then
      let freq := temp_freq fb refdiv_loop postdiv1_loop postdiv2_loop
      let freq_diff := |target_freq - freq|
      if freq_diff < s.min_difference ∧ freq_diff < max_diff then
        { fb_divider := fb.toNat % 256
          post_divider1 := postdiv1_loop
          post_divider2 := postdiv2_loop
          ref_divider := refdiv_loop
          min_difference := freq_diff
          newf := freq }
      else s
    else s
  else s

/-- The loop `for (postdiv2_loop = k; postdiv2_loop > 0 && fb_divider == 0; postdiv2_loop--)`. -/
def loop_postdiv2 (target_freq : ℚ) (refdiv_loop postdiv1_loop : Nat) :
    Nat → PllState → PllState
  | 0, s => s
  | k + 1, s =>
    if s.fb_divider = 0 then
      loop_postdiv2 target_freq refdiv_loop postdiv1_loop k
        (pll_body target_freq refdiv_loop postdiv1_loop (k + 1) s)
    else s

/-- The loop `for (postdiv1_loop = k; postdiv1_loop > 0 && fb_divider == 0; postdiv1_loop--)`. -/
def loop_postdiv1 (target_freq : ℚ) (refdiv_loop : Nat) : Nat → PllState → PllState
  | 0, s => s
  | k + 1, s =>
    if s.fb_divider = 0 then
      loop_postdiv1 target_freq refdiv_loop k
        (loop_postdiv2 target_freq refdiv_loop (k + 1) 7 s)
    else s

/-- The loop `for (refdiv_loop = k; refdiv_loop > 0 && fb_divider == 0; refdiv_loop--)`. -/
def loop_refdiv (target_freq : ℚ) : Nat → PllState → PllState
  | 0, s => s
  | k + 1, s =>
    if s.fb_divider = 0 then
      loop_refdiv target_freq k (loop_postdiv1 target_freq (k + 1) 7 s)
    else s

/-- The divider search of `BM1370_send_hash_frequency` in exact arithmetic: the locals
after the three nested loops. -/
def pll_search (target_freq : ℚ) : PllState :=
  loop_refdiv target_freq 2 PllState.initial

/-- Model of `BM1370_send_hash_frequency` in exact arithmetic: the transport after the
call.  The post dividers are at least 1 whenever the payload is built, so `- 1` does not
go below zero. -/
def BM1370_send_hash_frequency (crc5 crc16_false : List Nat → Nat) (target_freq : ℚ)
    (tx : List (List Nat)) : List (List Nat) :=
  let freqbuf := [0x00, 0x08, 0x40, 0xA0, 0x02, 0x41]
  let s := pll_search target_freq
  if s.fb_divider = 0 then tx
  else
    let freqbuf := poke freqbuf 3 s.fb_divider
    let freqbuf := poke freqbuf 4 s.ref_divider
    let freqbuf := poke freqbuf 5
      ((((s.post_divider1 - 1) &&& 0xf) <<< 4) + ((s.post_divider2 - 1) &&& 0xf))
    let freqbuf :=
      if ((s.fb_divider * 25 : Nat) : ℚ) / (s.ref_divider : ℚ) ≥ 2400 then poke freqbuf 2 0x50
      else freqbuf
    _send_BM1370 crc5 crc16_false (TYPE_CMD ||| GROUP_ALL ||| CMD_WRITE) freqbuf 6 tx

/-! ## First-fit description of the divider search in exact arithmetic -/

/-- Acceptance test applied to one combination of dividers: post-divider-1 at least
post-divider-2, rounded feedback divider within `[0xA0, 0xEF]`, and achieved frequency less
than `max_diff` away from the target. -/
def pll_accepts (target_freq : ℚ) (c : Nat × Nat × Nat) : Prop :=
  c.2.1 ≥ c.2.2 ∧
  (temp_fb_divider target_freq c.1 c.2.1 c.2.2 ≥ 0xa0 ∧
    temp_fb_divider target_freq c.1 c.2.1 c.2.2 ≤ 0xef) ∧
  |target_freq - temp_freq (temp_fb_divider target_freq c.1 c.2.1 c.2.2) c.1 c.2.1 c.2.2|
    < max_diff

instance (target_freq : ℚ) (c : Nat × Nat × Nat) : Decidable (pll_accepts target_freq c) := by
  unfold pll_accepts
  infer_instance

/-- The locals of the search once combination `c = (refdiv, post1, post2)` is taken. -/
def pll_found (target_freq : ℚ) (c : Nat × Nat × Nat) : PllState :=
  { fb_divider := (temp_fb_divider target_freq c.1 c.2.1 c.2.2).toNat % 256
    post_divider1 := c.2.1
    post_divider2 := c.2.2
    ref_divider := c.1
    min_difference :=
      |target_freq - temp_freq (temp_fb_divider target_freq c.1 c.2.1 c.2.2) c.1 c.2.1 c.2.2|
    newf := temp_freq (temp_fb_divider target_freq c.1 c.2.1 c.2.2) c.1 c.2.1 c.2.2 }

/-- The values `k, k-1, .., 1` a loop counter running down from `k` takes. -/
def countdown : Nat → List Nat
  | 0 => []
  | k + 1 => (k + 1) :: countdown k

/-- All combinations `(refdiv, post1, post2)` in the order the three loops visit them:
`refdiv` 2 then 1, `post1` from 7 down to 1, `post2` from 7 down to 1. -/
def pll_order : List (Nat × Nat × Nat) :=
  (countdown 2).flatMap fun r => (countdown 7).flatMap fun p1 => (countdown 7).map fun p2 =>
    (r, p1, p2)

/-- First-fit over a list of combinations: the first accepted one, else the untouched
locals. -/
def first_fit (target_freq : ℚ) : List (Nat × Nat × Nat) → PllState
  | [] => PllState.initial
  | c :: cs => if pll_accepts target_freq c then pll_found target_freq c
      else first_fit target_freq cs

/-- Combination `a` is visited before combination `b` by the three loops. -/
def visited_before (a b : Nat × Nat × Nat) : Prop :=
  a.1 > b.1 ∨ (a.1 = b.1 ∧ (a.2.1 > b.2.1 ∨ (a.2.1 = b.2.1 ∧ a.2.2 > b.2.2)))

instance (a b : Nat × Nat × Nat) : Decidable (visited_before a b) := by
  unfold visited_before
  infer_instance

/-! ## Length field and frame decoding -/

/-- The value `_send_BM1370` stores in `buf[3]`: `data_len + 4` for a job packet,
`data_len + 3` for a command packet, converted to `unsigned char`. -/
def length_field (header data_len : Nat) : Nat :=
  (if header &&& TYPE_JOB ≠ 0 then data_len + 4 else data_len + 3) % 256

/-- The reading of a frame the round-trip property is stated against: the header is byte 2,
the payload is made of the bytes from offset 4 on, as many as the length byte (byte 3)
minus 3 when header bit `0x20` is clear and minus 4 when it is set. -/
def decode_frame (frame : List Nat) : Nat × List Nat :=
  let header := frame.getD 2 0
  let len := frame.getD 3 0
  let count := if header &&& 0x20 = 0 then len - 3 else len - 4
  (header, (frame.drop 4).take count)

/-! ## Job payload and identifier sequence -/

/-- Big-endian encoding of a 32-bit value: most significant byte first. -/
def be32 (x : Nat) : List Nat :=
  [x / 16777216 % 256, x / 65536 % 256, x / 256 % 256, x % 256]

/-- The job identifiers assigned by successive `BM1370_send_work` calls, one call for each
work unit of `ws`, in call order. -/
def send_ids (crc5 crc16_false : List Nat → Nat) : State → List bm_job → List Nat
  | _, [] => []
  | st, w :: ws =>
    (BM1370_send_work crc5 crc16_false st w).id ::
      send_ids crc5 crc16_false (BM1370_send_work crc5 crc16_false st w) ws

/-! ## Chain initialisation -/

/-- Model of `BM1370_set_version_mask` (`version_mask` is a `uint32_t`). -/
def BM1370_set_version_mask (crc5 crc16_false : List Nat → Nat) (version_mask : Nat)
    (tx : List (List Nat)) : List (List Nat) :=
  let versions_to_roll := (version_mask % 4294967296) >>> 13
  let version_byte0 := (versions_to_roll >>> 8) % 256
  let version_byte1 := (versions_to_roll &&& 0xFF) % 256
  let version_cmd := [0x00, 0xA4, 0x90, 0x00, version_byte0, version_byte1]
  _send_BM1370 crc5 crc16_false (TYPE_CMD ||| GROUP_ALL ||| CMD_WRITE) version_cmd 6 tx

/-- Model of `_send_simple`: the first `total_length` bytes of `data` go out as they are. -/
def _send_simple (data : List Nat) (total_length : Nat) (tx : List (List Nat)) :
    List (List Nat) :=
  let buf := memcpy (malloc total_length) 0 data total_length
  tx ++ [buf.take total_length]

/-- Model of `_send_chain_inactive`. -/
def _send_chain_inactive (crc5 crc16_false : List Nat → Nat) (tx : List (List Nat)) :
    List (List Nat) :=
  let read_address := [0x00, 0x00]
  _send_BM1370 crc5 crc16_false (TYPE_CMD ||| GROUP_ALL ||| CMD_INACTIVE) read_address 2 tx

/-- The per-chip register loop of `BM1370_init` (five single-target register writes for
each chip), run from the 8-bit loop counter `i` on `fuel` evaluations of the loop
condition; `none` when the fuel runs out. -/
def register_loop (crc5 crc16_false : List Nat → Nat) (chip_counter interval : Nat) :
    Nat → Nat → List (List Nat) → Option (List (List Nat))
  | 0, _, _ => none
  | fuel + 1, i, tx =>
    if i < chip_counter then
      let a := (i * interval) % 256
      let hdr := TYPE_CMD ||| GROUP_SINGLE ||| CMD_WRITE
      let tx := _send_BM1370 crc5 crc16_false hdr [a, 0xA8, 0x00, 0x07, 0x01, 0xF0] 6 tx
      let tx := _send_BM1370 crc5 crc16_false hdr [a, 0x18, 0xF0, 0x00, 0xC1, 0x00] 6 tx
      let tx := _send_BM1370 crc5 crc16_false hdr [a, 0x3C, 0x80, 0x00, 0x8B, 0x00] 6 tx
      let tx := _send_BM1370 crc5 crc16_false hdr [a, 0x3C, 0x80, 0x00, 0x80, 0x0C] 6 tx
      let tx := _send_BM1370 crc5 crc16_false hdr [a, 0x3C, 0x80, 0x00, 0x82, 0xAA] 6 tx
      register_loop crc5 crc16_false chip_counter interval fuel ((i + 1) % 256) tx
    else some tx

/-- Model of `do_frequency_ramp_up`.  `do_frequency_transition` (of
`frequency_transition_bmXX.h`, outside this unit) is a parameter: given the target and
the callback `BM1370_send_hash_frequency` it yields the transport after its calls. -/
def do_frequency_ramp_up (crc5 crc16_false : List Nat → Nat)
    (do_frequency_transition :
      ℚ → (ℚ → List (List Nat) → List (List Nat)) → List (List Nat) → List (List Nat))
    (target_frequency : ℚ) (tx : List (List Nat)) : List (List Nat) :=
  if target_frequency = 0 then tx
  else do_frequency_transition target_frequency
    (BM1370_send_hash_frequency crc5 crc16_false) tx

/-- Model of `BM1370_init`: the transport after the call and the value returned, or `none`
when a loop does not end within `fuel` steps.  Parameters standing for what lies outside
this unit: `STRATUM_DEFAULT_VERSION_MASK`, `get_difficulty_mask` (the six bytes it
writes), `do_frequency_transition`, and `chip_counter`, the value returned by
`count_asic_chips(asic_count, BM1370_CHIP_ID, BM1370_CHIP_ID_RESPONSE_LENGTH)`, which
counts the responses received and is taken not to transmit. -/
def BM1370_init (crc5 crc16_false : List Nat → Nat) (STRATUM_DEFAULT_VERSION_MASK : Nat)
    (get_difficulty_mask : Nat → List Nat)
    (do_frequency_transition :
      ℚ → (ℚ → List (List Nat) → List (List Nat)) → List (List Nat) → List (List Nat))
    (chip_counter : Nat) (frequency difficulty : Nat) (fuel : Nat) (tx : List (List Nat)) :
    Option (List (List Nat) × Nat) :=
  let send := _send_BM1370 crc5 crc16_false
  let all_write := TYPE_CMD ||| GROUP_ALL ||| CMD_WRITE
  let tx := BM1370_set_version_mask crc5 crc16_false STRATUM_DEFAULT_VERSION_MASK tx
  let tx := BM1370_set_version_mask crc5 crc16_false STRATUM_DEFAULT_VERSION_MASK tx
  let tx := BM1370_set_version_mask crc5 crc16_false STRATUM_DEFAULT_VERSION_MASK tx
  let init3 := [0x55, 0xAA, 0x52, 0x05, 0x00, 0x00, 0x0A]
  let tx := _send_simple init3 7 tx
  if chip_counter = 0 then some (tx, 0)
  else
    let tx := BM1370_set_version_mask crc5 crc16_false STRATUM_DEFAULT_VERSION_MASK tx
    let tx := send all_write [0x00, 0xA8, 0x00, 0x07, 0x00, 0x00] 6 tx
    let tx := send all_write [0x00, 0x18, 0xF0, 0x00, 0xC1, 0x00] 6 tx
    let tx := _send_chain_inactive crc5 crc16_false tx
    let interval := address_interval chip_counter
    match address_loop crc5 crc16_false chip_counter interval fuel 0 tx with
    | none => none
    | some tx =>
      let tx := send all_write [0x00, 0x3C, 0x80, 0x00, 0x8B, 0x00] 6 tx
      let tx := send all_write [0x00, 0x3C, 0x80, 0x00, 0x80, 0x0C] 6 tx
      let difficulty_mask := get_difficulty_mask difficulty
      let tx := send all_write difficulty_mask 6 tx
      let tx := send all_write [0x00, 0x58, 0x00, 0x01, 0x11, 0x11] 6 tx
      match register_loop crc5 crc16_false chip_counter interval fuel 0 tx with
      | none => none
      | some tx =>
        let tx := send all_write [0x00, 0xB9, 0x00, 0x00, 0x44, 0x80] 6 tx
        let tx := send all_write [0x00, 0x54, 0x00, 0x00, 0x00, 0x02] 6 tx
        let tx := send all_write [0x00, 0xB9, 0x00, 0x00, 0x44, 0x80] 6 tx
        let tx := send all_write [0x00, 0x3C, 0x80, 0x00, 0x8D, 0xEE] 6 tx
        let tx := do_frequency_ramp_up crc5 crc16_false do_frequency_transition
          (frequency : ℚ) tx
        let set_10_hash_counting := [0x00, 0x10, 0x00, 0x00, 0x1E, 0xB5]
        let tx := send all_write set_10_hash_counting 6 tx
        some (tx, chip_counter % 256)

/-! ## Lock discipline and interleaved runs -/

/-- Where a path stands with respect to `valid_jobs_lock`: not holding it, holding it with
no access to `valid_jobs` made yet, or holding it after one access. -/
inductive LockState
  | unlocked
  | locked
  | accessed
  deriving DecidableEq, Repr

/-- A trace keeps the lock discipline when every read and write of `valid_jobs` falls
between a `lock` and the matching `unlock`, each lock is held for exactly one such access,
and the lock is released at the end. -/
def lock_discipline : LockState → List Event → Bool
  | LockState.unlocked, [] => true
  | _, [] => false
  | LockState.unlocked, Event.lock :: rest => lock_discipline LockState.locked rest
  | LockState.unlocked, Event.unlock :: _ => false
  | LockState.unlocked, Event.write_valid _ _ :: _ => false
  | LockState.unlocked, Event.read_valid _ :: _ => false
  | LockState.unlocked, _ :: rest => lock_discipline LockState.unlocked rest
  | LockState.locked, Event.write_valid _ _ :: rest => lock_discipline LockState.accessed rest
  | LockState.locked, Event.read_valid _ :: rest => lock_discipline LockState.accessed rest
  | LockState.locked, _ :: _ => false
  | LockState.accessed, Event.unlock :: rest => lock_discipline LockState.unlocked rest
  | LockState.accessed, _ :: _ => false

/-- One call on the send path or on the receive path. -/
inductive Op
  | send (w : bm_job)
  | process (rx : Option (List Nat))

/-- The state after one call. -/
def step (crc5 crc16_false : List Nat → Nat) (st : State) : Op → State
  | Op.send w => BM1370_send_work crc5 crc16_false st w
  | Op.process rx => (BM1370_process_work st rx).1

/-- The state after a sequence of calls, in order. -/
def run (crc5 crc16_false : List Nat → Nat) (st : State) (ops : List Op) : State :=
  ops.foldl (step crc5 crc16_false) st

/-- Slot-table invariant: every job id whose validity flag is non-zero has a non-null
slot. -/
def slots_cover_flags (st : State) : Prop :=
  ∀ j, st.valid_jobs j ≠ 0 → st.active_jobs j ≠ none

/-! ## The divider search as an enumeration -/

/-- The enumeration of the first-fit description in exact arithmetic: reference divider 2
then 1, post-divider-1 from 7 down to 1, post-divider-2 from 7 down to 1, keeping the
combinations with `post1 ≥ post2`, `fb = round (post1 * post2 * target * refdiv / 25)` in
`[0xA0, 0xEF]` and `|target - 25 * fb / (refdiv * post1 * post2)| < 1`. -/
def acceptable_combinations (target : ℚ) : List (Nat × Nat × Nat) :=
  (([2, 1] : List Nat).flatMap fun refdiv =>
    ([7, 6, 5, 4, 3, 2, 1] : List Nat).flatMap fun post1 =>
      ([7, 6, 5, 4, 3, 2, 1] : List Nat).map fun post2 => (refdiv, post1, post2)).filter
    fun c => decide (c.2.1 ≥ c.2.2 ∧
      0xA0 ≤ c_round ((c.2.1 : ℚ) * (c.2.2 : ℚ) * target * (c.1 : ℚ) / 25) ∧
      c_round ((c.2.1 : ℚ) * (c.2.2 : ℚ) * target * (c.1 : ℚ) / 25) ≤ 0xEF ∧
      |target - 25 * (c_round ((c.2.1 : ℚ) * (c.2.2 : ℚ) * target * (c.1 : ℚ) / 25) : ℚ) /
          ((c.1 : ℚ) * (c.2.1 : ℚ) * (c.2.2 : ℚ))| < 1)

/-! ## Binary floating point -/

/-- Power of two with an integer exponent. -/
def pow2 (k : Int) : ℚ := if 0 ≤ k then (2 : ℚ) ^ k.toNat else 1 / (2 : ℚ) ^ (-k).toNat

/-- Floor of the binary logarithm of `n`, by halving at most `fuel` times. -/
def log2_fuel : Nat → Nat → Nat
  | 0, _ => 0
  | fuel + 1, n => if n < 2 then 0 else log2_fuel fuel (n / 2) + 1

/-- Floor of the binary logarithm of a natural number (0 for 0). -/
def nat_log2 (n : Nat) : Nat := log2_fuel n n

/-- Floor of the binary logarithm of a positive rational: the difference of the
logarithms of numerator and denominator, or one less. -/
def ilog2 (x : ℚ) : Int :=
  let k : Int := (nat_log2 x.num.natAbs : Int) - (nat_log2 x.den : Int)
  if pow2 k ≤ x then k else k - 1

/-- Nearest integer, halfway cases to the even neighbour. -/
def round_even (y : ℚ) : Int :=
  let f := Rat.floor y
  let r := y - (f : ℚ)
  if r < 1 / 2 then f else if 1 / 2 < r then f + 1 else if f % 2 = 0 then f else f + 1

/-- Rounding to the nearest binary floating-point number with a significand of `prec`
bits, ties to even (the IEEE 754 default).  The exponent range is not bounded: overflow,
subnormal numbers and NaN are outside the model. -/
def fp_round (prec : Nat) (x : ℚ) : ℚ :=
  if x = 0 then 0
  else
    let e := ilog2 |x| - ((prec : Int) - 1)
    let m := round_even (|x| / pow2 e)
    (if x < 0 then -1 else 1) * (m : ℚ) * pow2 e

/-- Rounding to `float` (IEEE 754 binary32, 24-bit significand). -/
def f32 (x : ℚ) : ℚ := fp_round 24 x

/-- Rounding to `double` (IEEE 754 binary64, 53-bit significand). -/
def f64 (x : ℚ) : ℚ := fp_round 53 x

/-! ## Frequency synthesizer with the roundings of the code -/

/-- The `temp_fb_divider` of line 160 as the code computes it: the product
`postdiv1_loop * postdiv2_loop * target_freq * refdiv_loop` is formed in `float` (the
integer product is exact, each multiplication by a `float` rounds), the division by the
`double` constant `25.0` is a `double` division, and `round` goes to the nearest integer
(the conversion of that integer to `int` taken as exact). -/
def temp_fb_divider_f32 (target_freq : ℚ) (refdiv_loop postdiv1_loop postdiv2_loop : Nat) :
    Int :=
  c_round (f64 (f32 (f32 (((postdiv1_loop * postdiv2_loop : Nat) : ℚ) * target_freq) *
    (refdiv_loop : ℚ)) / 25))

/-- The `temp_freq` of line 163 as the code computes it: `25.0 * (float) temp_fb_divider`
and the division are `double` operations, the result is stored in a `float`. -/
def temp_freq_f32 (fb : Int) (refdiv_loop postdiv1_loop postdiv2_loop : Nat) : ℚ :=
  f32 (f64 (f64 (25 * f32 (fb : ℚ)) /
    f32 ((refdiv_loop * postdiv2_loop * postdiv1_loop : Nat) : ℚ)))

/-- The `freq_diff` of line 164: the `float` difference, made non-negative by `fabs`. -/
def freq_diff_f32 (target_freq temp_freq : ℚ) : ℚ := |f32 (target_freq - temp_freq)|

/-- Body of the innermost loop of the divider search, with the roundings of the code. -/
def pll_body_f32 (target_freq : ℚ) (refdiv_loop postdiv1_loop postdiv2_loop : Nat)
    (s : PllState) : PllState :=
  if postdiv1_loop ≥ postdiv2_loop then
    let fb := temp_fb_divider_f32 target_freq refdiv_loop postdiv1_loop postdiv2_loop
    if fb ≥ 0xa0 ∧ fb ≤ 0xef then
      let freq := temp_freq_f32 fb refdiv_loop postdiv1_loop postdiv2_loop
      let freq_diff := freq_diff_f32 target_freq freq
      if freq_diff < s.min_difference ∧ freq_diff < max_diff then
        { fb_divider := fb.toNat % 256
          post_divider1 := postdiv1_loop
          post_divider2 := postdiv2_loop
          ref_divider := refdiv_loop
          min_difference := freq_diff
          newf := freq }
      else s
    else s
  else s

/-- The loop over `postdiv2_loop`, guarded by `fb_divider == 0`. -/
def loop_postdiv2_f32 (target_freq : ℚ) (refdiv_loop postdiv1_loop : Nat) :
    Nat → PllState → PllState
  | 0, s => s
  | k + 1, s =>
    if s.fb_divider = 0 then
      loop_postdiv2_f32 target_freq refdiv_loop postdiv1_loop k
        (pll_body_f32 target_freq refdiv_loop postdiv1_loop (k + 1) s)
    else s

/-- The loop over `postdiv1_loop`, guarded by `fb_divider == 0`. -/
def loop_postdiv1_f32 (target_freq : ℚ) (refdiv_loop : Nat) : Nat → PllState → PllState
  | 0, s => s
  | k + 1, s =>
    if s.fb_divider = 0 then
      loop_postdiv1_f32 target_freq refdiv_loop k
        (loop_postdiv2_f32 target_freq refdiv_loop (k + 1) 7 s)
    else s

/-- The loop over `refdiv_loop`, guarded by `fb_divider == 0`. -/
def loop_refdiv_f32 (target_freq : ℚ) : Nat → PllState → PllState
  | 0, s => s
  | k + 1, s =>
    if s.fb_divider = 0 then
      loop_refdiv_f32 target_freq k (loop_postdiv1_f32 target_freq (k + 1) 7 s)
    else s

/-- The divider search of `BM1370_send_hash_frequency` (lines 146-178) with the roundings
of the code: the locals after the three nested loops.  `target_freq` is the value of the
`float` argument. -/
def pll_search_f32 (target_freq : ℚ) : PllState :=
  loop_refdiv_f32 target_freq 2 PllState.initial

/-- Model of `BM1370_send_hash_frequency` with the roundings of the code: the transport
after the call.  The test of the VCO frequency divides an integer below `2 ^ 24` by 1 or
2, which is exact in `float`. -/
def BM1370_send_hash_frequency_f32 (crc5 crc16_false : List Nat → Nat) (target_freq : ℚ)
    (tx : List (List Nat)) : List (List Nat) :=
  let freqbuf := [0x00, 0x08, 0x40, 0xA0, 0x02, 0x41]
  let s := pll_search_f32 target_freq
  if s.fb_divider = 0 then tx
  else
    let freqbuf := poke freqbuf 3 s.fb_divider
    let freqbuf := poke freqbuf 4 s.ref_divider
    let freqbuf := poke freqbuf 5
      ((((s.post_divider1 - 1) &&& 0xf) <<< 4) + ((s.post_divider2 - 1) &&& 0xf))
    let freqbuf :=
      if ((s.fb_divider * 25 : Nat) : ℚ) / (s.ref_divider : ℚ) ≥ 2400 then poke freqbuf 2 0x50
      else freqbuf
    _send_BM1370 crc5 crc16_false (TYPE_CMD ||| GROUP_ALL ||| CMD_WRITE) freqbuf 6 tx

/-- The acceptance test of the code for one combination `c = (refdiv, post1, post2)`:
post-divider-1 at least post-divider-2, feedback divider as computed by the code within
`[0xA0, 0xEF]`, and the `float` difference below `max_diff`. -/
def pll_accepts_f32 (target_freq : ℚ) (c : Nat × Nat × Nat) : Prop :=
  c.2.1 ≥ c.2.2 ∧
  (temp_fb_divider_f32 target_freq c.1 c.2.1 c.2.2 ≥ 0xa0 ∧
    temp_fb_divider_f32 target_freq c.1 c.2.1 c.2.2 ≤ 0xef) ∧
  freq_diff_f32 target_freq
    (temp_freq_f32 (temp_fb_divider_f32 target_freq c.1 c.2.1 c.2.2) c.1 c.2.1 c.2.2)
    < max_diff

instance (target_freq : ℚ) (c : Nat × Nat × Nat) :
    Decidable (pll_accepts_f32 target_freq c) := by
  unfold pll_accepts_f32
  infer_instance

/-- The locals of the search of the code once combination `c` is taken. -/
def pll_found_f32 (target_freq : ℚ) (c : Nat × Nat × Nat) : PllState :=
  { fb_divider := (temp_fb_divider_f32 target_freq c.1 c.2.1 c.2.2).toNat % 256
    post_divider1 := c.2.1
    post_divider2 := c.2.2
    ref_divider := c.1
    min_difference := freq_diff_f32 target_freq
      (temp_freq_f32 (temp_fb_divider_f32 target_freq c.1 c.2.1 c.2.2) c.1 c.2.1 c.2.2)
    newf := temp_freq_f32 (temp_fb_divider_f32 target_freq c.1 c.2.1 c.2.2) c.1 c.2.1 c.2.2 }

/-- First-fit over a list of combinations with the acceptance test of the code. -/
def first_fit_f32 (target_freq : ℚ) : List (Nat × Nat × Nat) → PllState
  | [] => PllState.initial
  | c :: cs => if pll_accepts_f32 target_freq c then pll_found_f32 target_freq c
      else first_fit_f32 target_freq cs

/-- The enumeration of the first-fit description with the acceptance test evaluated as the
code evaluates it: reference divider 2 then 1, post-divider-1 from 7 down to 1,
post-divider-2 from 7 down to 1, keeping the combinations with `post1 ≥ post2`, the
feedback divider `round (float (post1 * post2 * target * refdiv) / 25)` in `[0xA0, 0xEF]`
and the `float` difference `|float (target - float (25 * fb / (refdiv * post1 * post2)))|`
below 1. -/
def acceptable_combinations_f32 (target : ℚ) : List (Nat × Nat × Nat) :=
  (([2, 1] : List Nat).flatMap fun refdiv =>
    ([7, 6, 5, 4, 3, 2, 1] : List Nat).flatMap fun post1 =>
      ([7, 6, 5, 4, 3, 2, 1] : List Nat).map fun post2 => (refdiv, post1, post2)).filter
    fun c => decide (c.2.1 ≥ c.2.2 ∧
      0xA0 ≤ temp_fb_divider_f32 target c.1 c.2.1 c.2.2 ∧
      temp_fb_divider_f32 target c.1 c.2.1 c.2.2 ≤ 0xEF ∧
      |f32 (target - temp_freq_f32 (temp_fb_divider_f32 target c.1 c.2.1 c.2.2)
          c.1 c.2.1 c.2.2)| < 1)

/-! # Properties -/

/-! ## Lemmas on buffers -/

theorem writeBytes_append (pre mid post src : List Nat) (off : Nat)
    (hoff : pre.length = off) (hmid : mid.length = src.length) :
    writeBytes (pre ++ mid ++ post) off src = pre ++ src ++ post := by
  induction src generalizing pre mid off with
  | nil =>
    have : mid = [] := List.length_eq_zero.mp (by simpa using hmid)
    simp [writeBytes, this]
  | cons b bs ih =>
    cases mid with
    | nil => simp at hmid
    | cons m ms =>
      have hset : (pre ++ m :: ms ++ post).set off b = (pre ++ [b]) ++ ms ++ post := by
        subst hoff
        simp [List.set_append]
      simp only [writeBytes]
      rw [hset, ih (pre ++ [b]) ms (off + 1) (by simp [hoff]) (by simpa using hmid)]
      simp

theorem frame_cmd (crc5 crc16_false : List Nat → Nat) (header : Nat) (data : List Nat)
    (hh : header < 256) (hcmd : header &&& TYPE_JOB = 0) (hn : data.length ≤ 250) :
    frame_BM1370 crc5 crc16_false header data data.length =
      [0x55, 0xAA, header, data.length + 3] ++ data ++
        [crc5 (header :: (data.length + 3) :: data) % 256] := by
  have hrep : List.replicate ((data.length + 5) % 256) 0
      = [0, 0, 0, 0] ++ List.replicate data.length 0 ++ [0] := by
    rw [Nat.mod_eq_of_lt (by omega)]
    simp [List.replicate_succ, ← List.replicate_succ']
  have hcopy : writeBytes ([0x55, 0xAA, header, data.length + 3] ++
        List.replicate data.length 0 ++ [0]) 4 data
      = [0x55, 0xAA, header, data.length + 3] ++ data ++ [0] :=
    writeBytes_append _ _ _ _ _ rfl (by simp)
  simp only [frame_BM1370, hcmd, malloc, poke, memcpy, slice, ne_eq, not_true_eq_false,
    if_false, reduceCtorEq, List.take_length, hrep]
  simp only [List.cons_append, List.nil_append, List.set_cons_zero, List.set_cons_succ,
    Nat.mod_eq_of_lt hh, Nat.mod_eq_of_lt (show data.length + 3 < 256 by omega),
    Nat.reduceMod]
  have hcopy2 := hcopy
  simp only [List.cons_append, List.nil_append, List.append_assoc] at hcopy2
  rw [hcopy2, Nat.mod_eq_of_lt (show data.length + 5 < 256 by omega)]
  have hset : (85 :: 170 :: header :: (data.length + 3) :: (data ++ [0])).set (4 + data.length)
      (crc5 (header :: (data.length + 3) :: data) % 256)
      = 85 :: 170 :: header :: (data.length + 3) ::
          (data ++ [crc5 (header :: (data.length + 3) :: data) % 256]) := by
    rw [Nat.add_comm 4]
    simp [List.set_append]
  have hsl : List.take (data.length + 2)
      (List.drop 2 (85 :: 170 :: header :: (data.length + 3) :: (data ++ [0])))
      = header :: (data.length + 3) :: data := by
    simp [List.take_append_eq_append_take]
  rw [hsl, hset]
  apply List.take_of_length_le
  simp

theorem frame_job (crc5 crc16_false : List Nat → Nat) (header : Nat) (data : List Nat)
    (hh : header < 256) (hjob : header &&& TYPE_JOB ≠ 0) (hn : data.length ≤ 249) :
    frame_BM1370 crc5 crc16_false header data data.length =
      [0x55, 0xAA, header, data.length + 4] ++ data ++
        [crc16_false (header :: (data.length + 4) :: data) % 65536 / 256,
         crc16_false (header :: (data.length + 4) :: data) % 256] := by
  have hrep : List.replicate ((data.length + 6) % 256) 0
      = [0, 0, 0, 0] ++ List.replicate data.length 0 ++ [0, 0] := by
    rw [Nat.mod_eq_of_lt (by omega), show data.length + 6 = 4 + data.length + 2 by omega,
      List.replicate_add, List.replicate_add]
    rfl
  have hcopy : writeBytes ([0x55, 0xAA, header, data.length + 4] ++
        List.replicate data.length 0 ++ [0, 0]) 4 data
      = [0x55, 0xAA, header, data.length + 4] ++ data ++ [0, 0] :=
    writeBytes_append _ _ _ _ _ rfl (by simp)
  simp only [frame_BM1370, hjob, malloc, poke, memcpy, slice, ne_eq, not_false_eq_true,
    if_true, List.take_length, hrep]
  simp only [List.cons_append, List.nil_append, List.set_cons_zero, List.set_cons_succ,
    Nat.mod_eq_of_lt hh, Nat.mod_eq_of_lt (show data.length + 4 < 256 by omega),
    Nat.reduceMod]
  have hcopy2 := hcopy
  simp only [List.cons_append, List.nil_append, List.append_assoc] at hcopy2
  rw [hcopy2, Nat.mod_eq_of_lt (show data.length + 6 < 256 by omega)]
  have hsl : List.take (data.length + 2)
      (List.drop 2 (85 :: 170 :: header :: (data.length + 4) :: (data ++ [0, 0])))
      = header :: (data.length + 4) :: data := by
    simp [List.take_append_eq_append_take]
  rw [hsl]
  generalize crc16_false (header :: (data.length + 4) :: data) = c
  have hc : c % 65536 < 65536 := Nat.mod_lt _ (by norm_num)
  have hhi : (((c % 65536) >>> 8) &&& 255) % 256 = c % 65536 / 256 := by
    rw [Nat.shiftRight_eq_div_pow, show (255 : Nat) = 2 ^ 8 - 1 from rfl,
      Nat.and_pow_two_sub_one_eq_mod]
    omega
  have hlo : ((c % 65536) &&& 255) % 256 = c % 256 := by
    rw [show (255 : Nat) = 2 ^ 8 - 1 from rfl, Nat.and_pow_two_sub_one_eq_mod]
    omega
  rw [hhi, hlo]
  have hset : ((85 :: 170 :: header :: (data.length + 4) :: (data ++ [0, 0])).set
      (4 + data.length) (c % 65536 / 256)).set (5 + data.length) (c % 256)
      = 85 :: 170 :: header :: (data.length + 4) :: (data ++ [c % 65536 / 256, c % 256]) := by
    rw [Nat.add_comm 4, Nat.add_comm 5]
    simp [List.set_append]
  rw [hset]
  apply List.take_of_length_le
  simp

/-- C1: for a header byte and a payload of `n ≤ 249` bytes, `_send_BM1370` hands the
transport exactly one frame `55 AA header len payload checksum`.  With header bit `0x20`
clear the frame has `n + 5` bytes and ends in the byte returned by `crc5`; with the bit set
it has `n + 6` bytes and ends in the 16-bit value returned by `crc16_false`, high byte
first.  Either checksum is computed over exactly `header :: len :: payload` (`n + 2` bytes,
preamble excluded).  `crc5` and `crc16_false` are arbitrary functions; `% 256` and `% 65536`
are their `uint8_t` and `uint16_t` return types. -/
theorem send_BM1370_frame_layout (crc5 crc16_false : List Nat → Nat) (header : Nat)
    (data : List Nat) (tx : List (List Nat)) (hh : header < 256) (hn : data.length ≤ 249) :
    (header &&& 0x20 = 0 →
      _send_BM1370 crc5 crc16_false header data data.length tx =
        tx ++ [[0x55, 0xAA, header, data.length + 3] ++ data ++
          [crc5 (header :: (data.length + 3) :: data) % 256]] ∧
      ([0x55, 0xAA, header, data.length + 3] ++ data ++
          [crc5 (header :: (data.length + 3) :: data) % 256]).length = data.length + 5 ∧
      (header :: (data.length + 3) :: data).length = data.length + 2) ∧
    (header &&& 0x20 ≠ 0 →
      _send_BM1370 crc5 crc16_false header data data.length tx =
        tx ++ [[0x55, 0xAA, header, data.length + 4] ++ data ++
          [crc16_false (header :: (data.length + 4) :: data) % 65536 / 256,
           crc16_false (header :: (data.length + 4) :: data) % 256]] ∧
      ([0x55, 0xAA, header, data.length + 4] ++ data ++
          [crc16_false (header :: (data.length + 4) :: data) % 65536 / 256,
           crc16_false (header :: (data.length + 4) :: data) % 256]).length
        = data.length + 6 ∧
      (header :: (data.length + 4) :: data).length = data.length + 2) := by
  constructor
  · intro hb
    refine ⟨?_, by simp, by simp⟩
    rw [_send_BM1370, frame_cmd crc5 crc16_false header data hh hb (by omega)]
  · intro hb
    refine ⟨?_, by simp, by simp⟩
    rw [_send_BM1370, frame_job crc5 crc16_false header data hh hb hn]

/-- Witness for C1: a broadcast register write (command header `0x51`) and a job (header
`0x21`), each with a 6-byte payload, checksums taken as constants. -/
theorem send_BM1370_frame_layout_witness :
    _send_BM1370 (fun _ => 0x1B) (fun _ => 0x1234) 0x51 [0x00, 0x08, 0x40, 0xA0, 0x02, 0x41] 6 []
      = [[0x55, 0xAA, 0x51, 0x09, 0x00, 0x08, 0x40, 0xA0, 0x02, 0x41, 0x1B]] ∧
    _send_BM1370 (fun _ => 0x1B) (fun _ => 0x1234) 0x21 [0x00, 0x08, 0x40, 0xA0, 0x02, 0x41] 6 []
      = [[0x55, 0xAA, 0x21, 0x0A, 0x00, 0x08, 0x40, 0xA0, 0x02, 0x41, 0x12, 0x34]] :=
  ⟨((send_BM1370_frame_layout (fun _ => 0x1B) (fun _ => 0x1234) 0x51
      [0x00, 0x08, 0x40, 0xA0, 0x02, 0x41] [] (by decide) (by decide)).1 (by decide)).1,
   ((send_BM1370_frame_layout (fun _ => 0x1B) (fun _ => 0x1234) 0x21
      [0x00, 0x08, 0x40, 0xA0, 0x02, 0x41] [] (by decide) (by decide)).2 (by decide)).1⟩

/-! ## Result decoder -/

theorem ntohl_le (n0 n1 n2 n3 : Nat) (h0 : n0 < 256) (h1 : n1 < 256) (h2 : n2 < 256)
    (h3 : n3 < 256) :
    ntohl (n0 + 256 * n1 + 65536 * n2 + 16777216 * n3)
      = n0 * 16777216 + n1 * 65536 + n2 * 256 + n3 := by
  unfold ntohl
  omega

theorem ntohs_le (v0 v1 : Nat) (h0 : v0 < 256) (h1 : v1 < 256) :
    ntohs (v0 + 256 * v1) = v0 * 256 + v1 := by
  unfold ntohs
  omega

theorem extract_job_id_lt (rid : Nat) : (rid &&& 0xf0) >>> 1 ≤ 120 := by
  have h : rid &&& 0xf0 ≤ 0xf0 := Nat.and_le_right
  rw [Nat.shiftRight_eq_div_pow]
  omega

theorem process_work_some (st : State) (p0 p1 n0 n1 n2 n3 m rid v0 v1 crc : Nat) :
    BM1370_process_work st (some [p0, p1, n0, n1, n2, n3, m, rid, v0, v1, crc]) =
      let nonce := n0 + 256 * n1 + 65536 * n2 + 16777216 * n3
      let job_id := (rid &&& 0xf0) >>> 1
      let version_bits := (ntohs (v0 + 256 * v1) <<< 13) % 4294967296
      let st1 := { st with trace := st.trace ++
        [Event.log_result job_id (((ntohl nonce >>> 25) &&& 0x7f) % 256) ((rid &&& 0x0f) % 256)
          version_bits, Event.read_valid job_id] }
      if st.valid_jobs job_id = 0 then (st1, Outcome.null)
      else
        match st.active_jobs job_id with
        | none => (st1, Outcome.fault)
        | some p => (st1, Outcome.result ⟨job_id, nonce, p.version ||| version_bits⟩) := by
  have hj : ((rid &&& 0xf0) >>> 1) % 256 = (rid &&& 0xf0) >>> 1 :=
    Nat.mod_eq_of_lt (by have := extract_job_id_lt rid; omega)
  have hbuf : memcpy (malloc 11) 0 [p0, p1, n0, n1, n2, n3, m, rid, v0, v1, crc] 11
      = [p0, p1, n0, n1, n2, n3, m, rid, v0, v1, crc] := rfl
  simp only [BM1370_process_work, hbuf]
  have h32 : rd32 [p0, p1, n0, n1, n2, n3, m, rid, v0, v1, crc] 2
      = n0 + 256 * n1 + 65536 * n2 + 16777216 * n3 := rfl
  have h8 : rd8 [p0, p1, n0, n1, n2, n3, m, rid, v0, v1, crc] 7 = rid := rfl
  have h16 : rd16 [p0, p1, n0, n1, n2, n3, m, rid, v0, v1, crc] 8 = v0 + 256 * v1 := rfl
  rw [h32, h8, h16, hj]

/-- C2: for an 11-byte response record (`preamble(2) nonce(4) midstate(1) reply_id(1)
version(2) crc(1)`) whose extracted job id is marked valid and has a stored work unit `w`,
`BM1370_process_work` computes job id `(reply_id & 0xF0) >> 1`, core id = bits 31..25 of
the nonce bytes read big-endian, small core id `reply_id & 0x0F` (the three values of its
log line), and returns the result with that job id, the nonce field as loaded, and
`rolled_version = w.version | (big-endian version field << 13)`. -/
theorem process_work_decodes (st : State) (p0 p1 n0 n1 n2 n3 m rid v0 v1 crc : Nat)
    (w : bm_job) (h0 : n0 < 256) (h1 : n1 < 256) (h2 : n2 < 256) (h3 : n3 < 256)
    (hv0 : v0 < 256) (hv1 : v1 < 256)
    (hvalid : st.valid_jobs ((rid &&& 0xF0) >>> 1) ≠ 0)
    (hslot : st.active_jobs ((rid &&& 0xF0) >>> 1) = some w) :
    (BM1370_process_work st (some [p0, p1, n0, n1, n2, n3, m, rid, v0, v1, crc])).2 =
      Outcome.result
        { job_id := (rid &&& 0xF0) >>> 1
          nonce := n0 + 256 * n1 + 65536 * n2 + 16777216 * n3
          rolled_version := w.version ||| ((v0 * 256 + v1) <<< 13) } ∧
    (BM1370_process_work st (some [p0, p1, n0, n1, n2, n3, m, rid, v0, v1, crc])).1.trace =
      st.trace ++
        [Event.log_result ((rid &&& 0xF0) >>> 1)
            (((n0 * 16777216 + n1 * 65536 + n2 * 256 + n3) >>> 25) &&& 0x7F)
            (rid &&& 0x0F) ((v0 * 256 + v1) <<< 13),
          Event.read_valid ((rid &&& 0xF0) >>> 1)] := by
  have hvb : (ntohs (v0 + 256 * v1) <<< 13) % 4294967296 = (v0 * 256 + v1) <<< 13 := by
    rw [ntohs_le v0 v1 hv0 hv1, Nat.shiftLeft_eq]
    omega
  have hcore : (((n0 * 16777216 + n1 * 65536 + n2 * 256 + n3) >>> 25) &&& 0x7f) % 256
      = ((n0 * 16777216 + n1 * 65536 + n2 * 256 + n3) >>> 25) &&& 0x7f :=
    Nat.mod_eq_of_lt (Nat.lt_of_le_of_lt Nat.and_le_right (by norm_num))
  have hsmall : (rid &&& 0x0f) % 256 = rid &&& 0x0f :=
    Nat.mod_eq_of_lt (Nat.lt_of_le_of_lt Nat.and_le_right (by norm_num))
  rw [process_work_some]
  simp only [if_neg hvalid, hslot, hvb, ntohl_le n0 n1 n2 n3 h0 h1 h2 h3, hcore, hsmall]
  exact ⟨trivial, trivial⟩

/-- Witness for C2, the worked example of the specification: reply id `0x31`, nonce bytes
`02 00 00 00`, version field `0x0004`, stored version `0x20000000` give job id `0x18`,
core id 1, small core id 1 and rolled version `0x20008000`. -/
theorem process_work_decodes_witness :
    (BM1370_process_work example_state
        (some [0xAA, 0x55, 0x02, 0x00, 0x00, 0x00, 0x00, 0x31, 0x00, 0x04, 0x00])).2 =
      Outcome.result { job_id := 0x18, nonce := 0x00000002, rolled_version := 0x20008000 } ∧
    (BM1370_process_work example_state
        (some [0xAA, 0x55, 0x02, 0x00, 0x00, 0x00, 0x00, 0x31, 0x00, 0x04, 0x00])).1.trace =
      example_state.trace ++ [Event.log_result 0x18 1 1 0x8000, Event.read_valid 0x18] :=
  process_work_decodes example_state 0xAA 0x55 0x02 0x00 0x00 0x00 0x00 0x31 0x00 0x04 0x00
    example_job (by decide) (by decide) (by decide) (by decide) (by decide) (by decide)
    (by decide) (by decide)

/-- C3: `BM1370_process_work` returns a result exactly when the receive succeeded and the
validity flag of the extracted job id `(reply_id & 0xF0) >> 1` is non-zero: a failed
receive gives `NULL`, a record whose job id is not marked valid gives `NULL`, and a record
whose job id is marked valid gives a result.  The validity table and the record are
arbitrary; the slot of a job id marked valid holds a work unit. -/
theorem process_work_result_iff (st : State) (p0 p1 n0 n1 n2 n3 m rid v0 v1 crc : Nat)
    (hslot : st.valid_jobs ((rid &&& 0xF0) >>> 1) ≠ 0 →
      st.active_jobs ((rid &&& 0xF0) >>> 1) ≠ none) :
    (BM1370_process_work st none).2 = Outcome.null ∧
    (st.valid_jobs ((rid &&& 0xF0) >>> 1) = 0 →
      (BM1370_process_work st (some [p0, p1, n0, n1, n2, n3, m, rid, v0, v1, crc])).2
        = Outcome.null) ∧
    ((∃ r, (BM1370_process_work st (some [p0, p1, n0, n1, n2, n3, m, rid, v0, v1, crc])).2
        = Outcome.result r) ↔
      st.valid_jobs ((rid &&& 0xF0) >>> 1) ≠ 0) := by
  refine ⟨rfl, ?_, ?_⟩
  · intro hz
    rw [process_work_some]
    simp only [if_pos hz]
  · rw [process_work_some]
    by_cases hz : st.valid_jobs ((rid &&& 0xF0) >>> 1) = 0
    · simp [hz]
    · cases hs : st.active_jobs ((rid &&& 0xF0) >>> 1) with
      | none => exact absurd hs (hslot hz)
      | some w =>
        simp only [if_neg hz, hs]
        exact ⟨fun _ => hz, fun _ => ⟨_, rfl⟩⟩

/-- Witness for C3: in `example_state` the record with reply id `0x31` (job id `0x18`,
marked valid) gives a result. -/
theorem process_work_result_iff_witness :
    (BM1370_process_work example_state none).2 = Outcome.null ∧
    (example_state.valid_jobs ((0x31 &&& 0xF0) >>> 1) = 0 →
      (BM1370_process_work example_state
        (some [0xAA, 0x55, 0x02, 0x00, 0x00, 0x00, 0x00, 0x31, 0x00, 0x04, 0x00])).2
        = Outcome.null) ∧
    ((∃ r, (BM1370_process_work example_state
        (some [0xAA, 0x55, 0x02, 0x00, 0x00, 0x00, 0x00, 0x31, 0x00, 0x04, 0x00])).2
        = Outcome.result r) ↔
      example_state.valid_jobs ((0x31 &&& 0xF0) >>> 1) ≠ 0) :=
  process_work_result_iff example_state 0xAA 0x55 0x02 0x00 0x00 0x00 0x00 0x31 0x00 0x04 0x00
    (by decide)

/-! ## Job slot manager -/

theorem send_work_id (crc5 crc16_false : List Nat → Nat) (st : State) (w : bm_job) :
    (BM1370_send_work crc5 crc16_false st w).id = (st.id + 24) % 128 := by
  show (st.id + 24) % 128 % 256 = (st.id + 24) % 128
  omega

theorem send_many_id (crc5 crc16_false : List Nat → Nat) (ws : List bm_job) (st : State)
    (hk : 1 ≤ ws.length) :
    (send_many crc5 crc16_false st ws).id = (st.id + 24 * ws.length) % 128 := by
  induction ws generalizing st with
  | nil => simp at hk
  | cons w ws ih =>
    cases ws with
    | nil => simp [send_many, send_work_id]
    | cons w2 ws2 =>
      have h := ih (BM1370_send_work crc5 crc16_false st w) (by simp)
      simp only [send_many, List.foldl_cons] at h ⊢
      rw [h, send_work_id]
      simp only [List.length_cons]
      omega

/-- C4: every call of `BM1370_send_work` assigns the job identifier
`(previous identifier + 24) mod 128`; hence the `k`-th call (`k ≥ 1`) after a call that
assigned `p` assigns `(p + 24 * k) mod 128`. -/
theorem send_work_id_stride (crc5 crc16_false : List Nat → Nat) (st : State)
    (ws : List bm_job) (hk : 1 ≤ ws.length) :
    (∀ w, (BM1370_send_work crc5 crc16_false st w).id = (st.id + 24) % 128) ∧
    (send_many crc5 crc16_false st ws).id = (st.id + 24 * ws.length) % 128 :=
  ⟨send_work_id crc5 crc16_false st, send_many_id crc5 crc16_false ws st hk⟩

/-- Witness for C4: seven calls from the start-up state end on identifier 40. -/
theorem send_work_id_stride_witness :
    1 ≤ (List.replicate 7 example_job).length ∧
    ((∀ w, (BM1370_send_work (fun _ => 0) (fun _ => 0) State.initial w).id
        = (State.initial.id + 24) % 128) ∧
     (send_many (fun _ => 0) (fun _ => 0) State.initial (List.replicate 7 example_job)).id
        = (State.initial.id + 24 * (List.replicate 7 example_job).length) % 128) :=
  ⟨by decide, send_work_id_stride (fun _ => 0) (fun _ => 0) State.initial
    (List.replicate 7 example_job) (by decide)⟩

/-- C5: `BM1370_send_work st w`, with `j` the identifier it assigns, releases the work
unit stored in slot `j` exactly when that slot is non-null, and does so before `w` is
stored; afterwards `active_jobs[j] = w` and `valid_jobs[j] = 1`, and every other slot and
every other flag is as before. -/
theorem send_work_slot_effect (crc5 crc16_false : List Nat → Nat) (st : State) (w : bm_job) :
    let j := (st.id + 24) % 128
    let st1 := BM1370_send_work crc5 crc16_false st w
    st1.id = j ∧
    (∀ p, st.active_jobs j = some p →
      st1.trace = st.trace ++
        [Event.free p, Event.store j w, Event.lock, Event.write_valid j 1, Event.unlock]) ∧
    (st.active_jobs j = none →
      st1.trace = st.trace ++
        [Event.store j w, Event.lock, Event.write_valid j 1, Event.unlock]) ∧
    st1.active_jobs j = some w ∧
    st1.valid_jobs j = 1 ∧
    (∀ k, k ≠ j → st1.active_jobs k = st.active_jobs k ∧ st1.valid_jobs k = st.valid_jobs k) := by
  have hj : (st.id + 24) % 128 % 256 = (st.id + 24) % 128 := by omega
  refine ⟨send_work_id crc5 crc16_false st w, ?_, ?_, ?_, ?_, ?_⟩
  · intro p hp
    simp [BM1370_send_work, hj, hp]
  · intro hp
    simp [BM1370_send_work, hj, hp]
  · simp [BM1370_send_work, hj]
  · simp [BM1370_send_work, hj]
  · intro k hk
    simp [BM1370_send_work, hj, Function.update_noteq hk]

/-! ## Chip addressing -/

theorem set_chip_address_frame (crc5 crc16_false : List Nat → Nat) (a : Nat)
    (tx : List (List Nat)) (ha : a < 256) :
    _set_chip_address crc5 crc16_false a tx =
      tx ++ [[0x55, 0xAA, 0x40, 0x05, a, 0x00, crc5 [0x40, 0x05, a, 0x00] % 256]] := by
  have h := frame_cmd crc5 crc16_false 0x40 [a, 0x00] (by norm_num) (by decide) (by simp)
  simp only [_set_chip_address, _send_BM1370, Nat.mod_eq_of_lt ha]
  rw [show (TYPE_CMD ||| GROUP_SINGLE ||| CMD_SETADDRESS) = 0x40 from by decide,
    show (2 : Nat) = [a, 0x00].length from rfl, h]
  rfl

theorem address_below_256 (n i : Nat) (hi : i < n) : i * (256 / n) < 256 := by
  rcases Nat.eq_zero_or_pos (256 / n) with hq | hq
  · rw [hq]
    omega
  · have h := Nat.div_mul_le_self 256 n
    have h2 : (i + 1) * (256 / n) ≤ n * (256 / n) := Nat.mul_le_mul_right _ hi
    rw [Nat.mul_comm n] at h2
    rw [Nat.add_mul] at h2
    omega

theorem address_interval_mul (n i : Nat) (h1 : 1 ≤ n) (hi : i < n) :
    i * address_interval n % 256 = i * (256 / n) := by
  unfold address_interval
  by_cases hn : n = 1
  · subst hn
    have : i = 0 := by omega
    subst this
    simp
  · have hq : 256 / n < 256 := Nat.div_lt_self (by norm_num) (by omega)
    rw [Nat.mod_eq_of_lt hq, Nat.mod_eq_of_lt (address_below_256 n i hi)]

theorem address_loop_run (crc5 crc16_false : List Nat → Nat) (n : Nat) (h255 : n ≤ 255)
    (fuel i : Nat) (tx : List (List Nat)) (hi : i ≤ n) (hfuel : n - i < fuel) :
    address_loop crc5 crc16_false n (address_interval n) fuel i tx =
      some (tx ++ (List.range' i (n - i)).map (fun k =>
        [0x55, 0xAA, 0x40, 0x05, k * address_interval n % 256, 0x00,
          crc5 [0x40, 0x05, k * address_interval n % 256, 0x00] % 256])) := by
  induction fuel generalizing i tx with
  | zero => omega
  | succ fuel ih =>
    unfold address_loop
    by_cases hlt : i < n
    · rw [if_pos hlt, Nat.mod_eq_of_lt (show i + 1 < 256 by omega),
        ih (i + 1) _ hlt (by omega)]
      have hset : _set_chip_address crc5 crc16_false (i * address_interval n) tx
          = tx ++ [[0x55, 0xAA, 0x40, 0x05, i * address_interval n % 256, 0x00,
              crc5 [0x40, 0x05, i * address_interval n % 256, 0x00] % 256]] := by
        have h := set_chip_address_frame crc5 crc16_false (i * address_interval n % 256) tx
          (Nat.mod_lt _ (by norm_num))
        simpa [_set_chip_address] using h
      rw [hset, show n - i = (n - (i + 1)) + 1 by omega, List.range'_succ]
      simp
    · have : i = n := by omega
      subst this
      simp [if_neg hlt]

/-- C6: for a discovered chip count `1 ≤ n ≤ 255` the addressing loop of `BM1370_init`
ends (on any fuel above `n`) having sent exactly `n` set-address command frames, header
`0x40`, payload `{address, 0x00}`, the `i`-th (`i = 0 .. n-1`) with address
`i * ⌊256 / n⌋`, a natural number below 256; the addresses increase strictly with `i`,
so they are pairwise distinct. -/
theorem init_addressing (crc5 crc16_false : List Nat → Nat) (n : Nat) (tx : List (List Nat))
    (h1 : 1 ≤ n) (h255 : n ≤ 255) :
    (∀ fuel, n < fuel →
      address_loop crc5 crc16_false n (address_interval n) fuel 0 tx =
        some (tx ++ (List.range n).map (fun i =>
          [0x55, 0xAA, 0x40, 0x05, i * (256 / n), 0x00,
            crc5 [0x40, 0x05, i * (256 / n), 0x00] % 256]))) ∧
    ((List.range n).map (fun i =>
          [0x55, 0xAA, 0x40, 0x05, i * (256 / n), 0x00,
            crc5 [0x40, 0x05, i * (256 / n), 0x00] % 256])).length = n ∧
    (∀ i, i < n → i * (256 / n) < 256) ∧
    (∀ i j, i < j → j < n → i * (256 / n) < j * (256 / n)) ∧
    (∀ i j, i < n → j < n → i * (256 / n) = j * (256 / n) → i = j) := by
  have hq : 0 < 256 / n := Nat.div_pos (by omega) (by omega)
  refine ⟨?_, by simp, fun i hi => address_below_256 n i hi,
    fun i j hij _ => Nat.mul_lt_mul_of_pos_right hij hq,
    fun i j _ _ h => Nat.eq_of_mul_eq_mul_right hq h⟩
  intro fuel hfuel
  rw [address_loop_run crc5 crc16_false n h255 fuel 0 tx (Nat.zero_le _) (by omega),
    Nat.sub_zero, ← List.range_eq_range']
  congr 2
  apply List.map_congr_left
  intro i hi
  rw [address_interval_mul n i h1 (List.mem_range.mp hi)]

/-- Witness for C6 at the chip counts 1, 2, 3, 4 and 8 (checksum taken as the constant
`0x1C`): the addresses sent are `0`; `0, 128`; `0, 85, 170`; `0, 64, 128, 192`; and
`0, 32, .., 224`. -/
theorem init_addressing_witness :
    address_loop (fun _ => 0x1C) (fun _ => 0) 1 (address_interval 1) 2 0 [] =
      some [[0x55, 0xAA, 0x40, 0x05, 0, 0x00, 0x1C]] ∧
    address_loop (fun _ => 0x1C) (fun _ => 0) 2 (address_interval 2) 3 0 [] =
      some [[0x55, 0xAA, 0x40, 0x05, 0, 0x00, 0x1C], [0x55, 0xAA, 0x40, 0x05, 128, 0x00, 0x1C]] ∧
    address_loop (fun _ => 0x1C) (fun _ => 0) 3 (address_interval 3) 4 0 [] =
      some [[0x55, 0xAA, 0x40, 0x05, 0, 0x00, 0x1C], [0x55, 0xAA, 0x40, 0x05, 85, 0x00, 0x1C],
        [0x55, 0xAA, 0x40, 0x05, 170, 0x00, 0x1C]] ∧
    address_loop (fun _ => 0x1C) (fun _ => 0) 4 (address_interval 4) 5 0 [] =
      some ((List.range 4).map (fun i => [0x55, 0xAA, 0x40, 0x05, i * 64, 0x00, 0x1C])) ∧
    address_loop (fun _ => 0x1C) (fun _ => 0) 8 (address_interval 8) 9 0 [] =
      some ((List.range 8).map (fun i => [0x55, 0xAA, 0x40, 0x05, i * 32, 0x00, 0x1C])) :=
  ⟨(init_addressing (fun _ => 0x1C) (fun _ => 0) 1 [] (by decide) (by decide)).1 2 (by decide),
   (init_addressing (fun _ => 0x1C) (fun _ => 0) 2 [] (by decide) (by decide)).1 3 (by decide),
   (init_addressing (fun _ => 0x1C) (fun _ => 0) 3 [] (by decide) (by decide)).1 4 (by decide),
   (init_addressing (fun _ => 0x1C) (fun _ => 0) 4 [] (by decide) (by decide)).1 5 (by decide),
   (init_addressing (fun _ => 0x1C) (fun _ => 0) 8 [] (by decide) (by decide)).1 9 (by decide)⟩

/-! ## Frequency synthesizer -/

theorem pll_found_fb_ne_zero (t : ℚ) (c : Nat × Nat × Nat) (h : pll_accepts t c) :
    (pll_found t c).fb_divider = (temp_fb_divider t c.1 c.2.1 c.2.2).toNat ∧
    0xa0 ≤ (pll_found t c).fb_divider ∧ (pll_found t c).fb_divider ≤ 0xef ∧
    (((pll_found t c).fb_divider : Int) = temp_fb_divider t c.1 c.2.1 c.2.2) := by
  obtain ⟨_, ⟨hlo, hhi⟩, _⟩ := h
  simp only [pll_found]
  omega

theorem pll_body_initial (t : ℚ) (r p1 p2 : Nat) :
    pll_body t r p1 p2 PllState.initial =
      if pll_accepts t (r, p1, p2) then pll_found t (r, p1, p2) else PllState.initial := by
  unfold pll_body pll_accepts
  by_cases h1 : p1 ≥ p2
  · by_cases h2 : temp_fb_divider t r p1 p2 ≥ 0xa0 ∧ temp_fb_divider t r p1 p2 ≤ 0xef
    · by_cases h3 : |t - temp_freq (temp_fb_divider t r p1 p2) r p1 p2| < max_diff
      · have h4 : |t - temp_freq (temp_fb_divider t r p1 p2) r p1 p2|
            < PllState.initial.min_difference := by
          have : PllState.initial.min_difference = 10 := rfl
          rw [this]
          unfold max_diff at h3
          linarith
        simp only [h1, h2, h3, h4, and_self, if_true, pll_found]
      · simp [h1, h2, h3]
    · simp [h1, h2]
  · simp [h1]

theorem first_fit_cases (t : ℚ) (cs : List (Nat × Nat × Nat)) :
    (first_fit t cs = PllState.initial ∧ ∀ c ∈ cs, ¬ pll_accepts t c) ∨
    ∃ pre c post, cs = pre ++ c :: post ∧ (∀ d ∈ pre, ¬ pll_accepts t d) ∧
      pll_accepts t c ∧ first_fit t cs = pll_found t c := by
  induction cs with
  | nil => exact Or.inl ⟨rfl, by simp⟩
  | cons c cs ih =>
    by_cases hc : pll_accepts t c
    · exact Or.inr ⟨[], c, cs, rfl, by simp, hc, by simp [first_fit, hc]⟩
    · rcases ih with ⟨h0, hall⟩ | ⟨pre, d, post, hcs, hpre, hd, hfit⟩
      · refine Or.inl ⟨by simp [first_fit, hc, h0], ?_⟩
        intro x hx
        rcases List.mem_cons.mp hx with rfl | hx
        · exact hc
        · exact hall x hx
      · refine Or.inr ⟨c :: pre, d, post, by simp [hcs], ?_, hd, by simp [first_fit, hc, hfit]⟩
        intro x hx
        rcases List.mem_cons.mp hx with rfl | hx
        · exact hc
        · exact hpre x hx

theorem first_fit_fb_zero_iff (t : ℚ) (cs : List (Nat × Nat × Nat)) :
    (first_fit t cs).fb_divider = 0 ↔ first_fit t cs = PllState.initial := by
  constructor
  · intro h
    rcases first_fit_cases t cs with ⟨h0, _⟩ | ⟨pre, c, post, _, _, hc, hfit⟩
    · exact h0
    · rw [hfit] at h
      have := pll_found_fb_ne_zero t c hc
      omega
  · intro h
    rw [h]
    rfl

theorem first_fit_append (t : ℚ) (l1 l2 : List (Nat × Nat × Nat)) :
    first_fit t (l1 ++ l2) =
      if (first_fit t l1).fb_divider = 0 then first_fit t l2 else first_fit t l1 := by
  induction l1 with
  | nil => simp [first_fit, PllState.initial]
  | cons c cs ih =>
    by_cases hc : pll_accepts t c
    · have := pll_found_fb_ne_zero t c hc
      have hne : (pll_found t c).fb_divider ≠ 0 := by omega
      simp [first_fit, hc, hne]
    · simp [first_fit, hc, ih]

theorem loop_postdiv2_found (t : ℚ) (r p1 k : Nat) (s : PllState) (h : s.fb_divider ≠ 0) :
    loop_postdiv2 t r p1 k s = s := by
  cases k <;> simp [loop_postdiv2, h]

theorem loop_postdiv1_found (t : ℚ) (r k : Nat) (s : PllState) (h : s.fb_divider ≠ 0) :
    loop_postdiv1 t r k s = s := by
  cases k <;> simp [loop_postdiv1, h]

theorem loop_refdiv_found (t : ℚ) (k : Nat) (s : PllState) (h : s.fb_divider ≠ 0) :
    loop_refdiv t k s = s := by
  cases k <;> simp [loop_refdiv, h]

theorem loop_postdiv2_eq (t : ℚ) (r p1 k : Nat) :
    loop_postdiv2 t r p1 k PllState.initial =
      first_fit t ((countdown k).map fun p2 => (r, p1, p2)) := by
  induction k with
  | zero => rfl
  | succ k ih =>
    have h0 : PllState.initial.fb_divider = 0 := rfl
    simp only [loop_postdiv2, h0, if_true, countdown, List.map_cons, first_fit,
      pll_body_initial]
    by_cases hc : pll_accepts t (r, p1, k + 1)
    · have := pll_found_fb_ne_zero t _ hc
      simp only [if_pos hc]
      exact loop_postdiv2_found t r p1 k _ (by omega)
    · simp only [if_neg hc]
      exact ih

theorem loop_postdiv1_eq (t : ℚ) (r k : Nat) :
    loop_postdiv1 t r k PllState.initial =
      first_fit t ((countdown k).flatMap fun p1 => (countdown 7).map fun p2 => (r, p1, p2)) := by
  induction k with
  | zero => rfl
  | succ k ih =>
    have h0 : PllState.initial.fb_divider = 0 := rfl
    rw [loop_postdiv1, if_pos h0, show countdown (k + 1) = (k + 1) :: countdown k from rfl,
      List.flatMap_cons, first_fit_append, loop_postdiv2_eq]
    by_cases hz : (first_fit t ((countdown 7).map fun p2 => (r, k + 1, p2))).fb_divider = 0
    · rw [if_pos hz, (first_fit_fb_zero_iff t _).mp hz]
      exact ih
    · rw [if_neg hz]
      exact loop_postdiv1_found t r k _ hz

theorem loop_refdiv_eq (t : ℚ) (k : Nat) :
    loop_refdiv t k PllState.initial =
      first_fit t ((countdown k).flatMap fun r => (countdown 7).flatMap fun p1 =>
        (countdown 7).map fun p2 => (r, p1, p2)) := by
  induction k with
  | zero => rfl
  | succ k ih =>
    have h0 : PllState.initial.fb_divider = 0 := rfl
    rw [loop_refdiv, if_pos h0, show countdown (k + 1) = (k + 1) :: countdown k from rfl,
      List.flatMap_cons, first_fit_append, loop_postdiv1_eq]
    by_cases hz : (first_fit t ((countdown 7).flatMap fun p1 =>
        (countdown 7).map fun p2 => (k + 1, p1, p2))).fb_divider = 0
    · rw [if_pos hz, (first_fit_fb_zero_iff t _).mp hz]
      exact ih
    · rw [if_neg hz]
      exact loop_refdiv_found t k _ hz

theorem pll_search_eq_first_fit (t : ℚ) : pll_search t = first_fit t pll_order :=
  loop_refdiv_eq t 2

theorem mem_countdown (k x : Nat) : x ∈ countdown k ↔ 1 ≤ x ∧ x ≤ k := by
  induction k with
  | zero =>
    simp only [countdown, List.not_mem_nil, false_iff]
    omega
  | succ k ih =>
    simp only [countdown, List.mem_cons, ih]
    omega

theorem mem_pll_order (c : Nat × Nat × Nat) :
    c ∈ pll_order ↔ (1 ≤ c.1 ∧ c.1 ≤ 2) ∧ (1 ≤ c.2.1 ∧ c.2.1 ≤ 7) ∧ (1 ≤ c.2.2 ∧ c.2.2 ≤ 7) := by
  obtain ⟨r, p1, p2⟩ := c
  simp only [pll_order, List.mem_flatMap, List.mem_map, mem_countdown, Prod.mk.injEq]
  constructor
  · rintro ⟨a, ha, b, hb, d, hd, rfl, rfl, rfl⟩
    exact ⟨ha, hb, hd⟩
  · rintro ⟨ha, hb, hd⟩
    exact ⟨r, ha, p1, hb, p2, hd, rfl, rfl, rfl⟩

theorem pll_search_cases (t : ℚ) :
    (pll_search t = PllState.initial ∧ ∀ c ∈ pll_order, ¬ pll_accepts t c) ∨
    ∃ pre c post, pll_order = pre ++ c :: post ∧ (∀ d ∈ pre, ¬ pll_accepts t d) ∧
      pll_accepts t c ∧ pll_search t = pll_found t c := by
  rw [pll_search_eq_first_fit]
  exact first_fit_cases t pll_order

theorem pll_search_found (t : ℚ) (h : (pll_search t).fb_divider ≠ 0) :
    ∃ pre c post, pll_order = pre ++ c :: post ∧ (∀ d ∈ pre, ¬ pll_accepts t d) ∧
      pll_accepts t c ∧ pll_search t = pll_found t c := by
  rcases pll_search_cases t with ⟨h0, _⟩ | hfound
  · rw [h0] at h
    exact absurd rfl h
  · exact hfound

theorem temp_freq_eq (fb r p1 p2 : Nat) :
    temp_freq (fb : Int) r p1 p2 = 25 * (fb : ℚ) / ((r : ℚ) * (p1 : ℚ) * (p2 : ℚ)) := by
  unfold temp_freq
  push_cast
  ring_nf

theorem pll_search_good (t : ℚ) (h : (pll_search t).fb_divider ≠ 0) :
    (0xA0 ≤ (pll_search t).fb_divider ∧ (pll_search t).fb_divider ≤ 0xEF) ∧
    ((pll_search t).ref_divider = 1 ∨ (pll_search t).ref_divider = 2) ∧
    (1 ≤ (pll_search t).post_divider1 ∧ (pll_search t).post_divider1 ≤ 7) ∧
    (1 ≤ (pll_search t).post_divider2 ∧ (pll_search t).post_divider2 ≤ 7) ∧
    (pll_search t).post_divider1 ≥ (pll_search t).post_divider2 ∧
    |t - 25 * ((pll_search t).fb_divider : ℚ) /
        (((pll_search t).ref_divider : ℚ) * ((pll_search t).post_divider1 : ℚ) *
          ((pll_search t).post_divider2 : ℚ))| < 1 := by
  obtain ⟨pre, c, post, hord, _, hc, hs⟩ := pll_search_found t h
  have hmem : c ∈ pll_order := by
    rw [hord]
    simp
  obtain ⟨hr, hp1, hp2⟩ := (mem_pll_order c).mp hmem
  obtain ⟨hfb, hlo, hhi, hcast⟩ := pll_found_fb_ne_zero t c hc
  obtain ⟨hge, _, hdiff⟩ := hc
  rw [hs]
  refine ⟨⟨hlo, hhi⟩, ?_, hp1, hp2, hge, ?_⟩
  · show c.1 = 1 ∨ c.1 = 2
    omega
  · rw [← temp_freq_eq, hcast]
    exact hdiff

theorem pll_order_sorted : pll_order.Pairwise visited_before := by decide

theorem visited_before_asymm (a b : Nat × Nat × Nat) (hab : visited_before a b)
    (hba : visited_before b a) : False := by
  unfold visited_before at hab hba
  omega

theorem visited_before_in_front (pre post : List (Nat × Nat × Nat)) (c d : Nat × Nat × Nat)
    (hord : pll_order = pre ++ c :: post) (hd : d ∈ pll_order) (hdc : visited_before d c) :
    d ∈ pre := by
  have hs := pll_order_sorted
  rw [hord] at hs hd
  rcases List.mem_append.mp hd with hpre | hrest
  · exact hpre
  · exfalso
    rcases List.mem_cons.mp hrest with rfl | hpost
    · exact visited_before_asymm d d hdc hdc
    · have hcons := (List.pairwise_append.mp hs).2.1
      exact visited_before_asymm d c hdc (List.rel_of_pairwise_cons hcons hpost)

theorem no_solution_at_10kHz : ∀ c ∈ pll_order, ¬ pll_accepts (1 / 100) c := by decide!

theorem postdiv_byte (p1 p2 : Nat) (h1 : 1 ≤ p1 ∧ p1 ≤ 7) (h2 : 1 ≤ p2 ∧ p2 ≤ 7) :
    ((((p1 - 1) &&& 0xf) <<< 4) + ((p2 - 1) &&& 0xf)) % 256 = ((p1 - 1) <<< 4) + (p2 - 1) := by
  obtain ⟨h1a, h1b⟩ := h1
  obtain ⟨h2a, h2b⟩ := h2
  interval_cases p1 <;> interval_cases p2 <;> rfl

theorem send_hash_frequency_frame_of_found (crc5 crc16_false : List Nat → Nat) (target_freq : ℚ)
    (tx : List (List Nat)) (h : (pll_search target_freq).fb_divider ≠ 0) :
    BM1370_send_hash_frequency crc5 crc16_false target_freq tx =
      tx ++ [[0x55, 0xAA, 0x51, 0x09,
        0x00, 0x08,
        (if ((pll_search target_freq).fb_divider : ℚ) * 25 /
            ((pll_search target_freq).ref_divider : ℚ) ≥ 2400 then 0x50 else 0x40),
        (pll_search target_freq).fb_divider,
        (pll_search target_freq).ref_divider,
        (((pll_search target_freq).post_divider1 - 1) <<< 4) +
          ((pll_search target_freq).post_divider2 - 1),
        crc5 [0x51, 0x09, 0x00, 0x08,
          (if ((pll_search target_freq).fb_divider : ℚ) * 25 /
              ((pll_search target_freq).ref_divider : ℚ) ≥ 2400 then 0x50 else 0x40),
          (pll_search target_freq).fb_divider,
          (pll_search target_freq).ref_divider,
          (((pll_search target_freq).post_divider1 - 1) <<< 4) +
            ((pll_search target_freq).post_divider2 - 1)] % 256]] := by
  obtain ⟨⟨_, hfb⟩, href, hp1, hp2, _, _⟩ := pll_search_good target_freq h
  simp only [BM1370_send_hash_frequency, _send_BM1370]
  generalize pll_search target_freq = s at *
  have hfb256 : s.fb_divider % 256 = s.fb_divider := Nat.mod_eq_of_lt (by omega)
  have href256 : s.ref_divider % 256 = s.ref_divider := Nat.mod_eq_of_lt (by omega)
  have hcast : (((s.fb_divider * 25 : Nat) : ℚ) / (s.ref_divider : ℚ) ≥ 2400) ↔
      ((s.fb_divider : ℚ) * 25 / (s.ref_divider : ℚ) ≥ 2400) := by
    push_cast
    exact Iff.rfl
  simp only [if_neg h, poke, List.set_cons_succ, List.set_cons_zero, hfb256, href256,
    postdiv_byte _ _ hp1 hp2, hcast]
  have hhdr : (TYPE_CMD ||| GROUP_ALL ||| CMD_WRITE) = 0x51 := by decide
  rw [hhdr]
  by_cases hv : (s.fb_divider : ℚ) * 25 / (s.ref_divider : ℚ) ≥ 2400
  · have hf : frame_BM1370 crc5 crc16_false 0x51
        [0x00, 0x08, 0x50, s.fb_divider, s.ref_divider,
          ((s.post_divider1 - 1) <<< 4) + (s.post_divider2 - 1)] 6 =
        [0x55, 0xAA, 0x51, 0x09, 0x00, 0x08, 0x50, s.fb_divider, s.ref_divider,
          ((s.post_divider1 - 1) <<< 4) + (s.post_divider2 - 1),
          crc5 [0x51, 0x09, 0x00, 0x08, 0x50, s.fb_divider, s.ref_divider,
            ((s.post_divider1 - 1) <<< 4) + (s.post_divider2 - 1)] % 256] :=
      frame_cmd crc5 crc16_false 0x51 _ (by norm_num) (by decide) (by simp)
    simp only [if_pos hv, Nat.reduceMod, hf]
  · have hf : frame_BM1370 crc5 crc16_false 0x51
        [0x00, 0x08, 0x40, s.fb_divider, s.ref_divider,
          ((s.post_divider1 - 1) <<< 4) + (s.post_divider2 - 1)] 6 =
        [0x55, 0xAA, 0x51, 0x09, 0x00, 0x08, 0x40, s.fb_divider, s.ref_divider,
          ((s.post_divider1 - 1) <<< 4) + (s.post_divider2 - 1),
          crc5 [0x51, 0x09, 0x00, 0x08, 0x40, s.fb_divider, s.ref_divider,
            ((s.post_divider1 - 1) <<< 4) + (s.post_divider2 - 1)] % 256] :=
      frame_cmd crc5 crc16_false 0x51 _ (by norm_num) (by decide) (by simp)
    simp only [if_neg hv, hf]

/-- C11, as stated, fails for a 253-byte payload of a command frame (header `0x51`): the
value stored as length byte is `(253 + 3) mod 256 = 0`, not 256, and the frame handed to
the transport has no byte equal to 256 at offset 3. -/
theorem length_byte_wraps :
    length_field 0x51 253 = 0 ∧ length_field 0x51 253 ≠ 253 + 3 ∧
    (frame_BM1370 (fun _ => 0) (fun _ => 0) 0x51 (List.replicate 253 0) 253)[3]?
      ≠ some (253 + 3) :=
  ⟨by decide, by decide, by decide!⟩

/-- C11 (amended): for a header byte and a payload of `n` bytes whose frame length fits in
8 bits (`n ≤ 250` for a command frame, `n ≤ 249` for a job frame) the length byte of the
frame built by `_send_BM1370` is `n + 3` resp. `n + 4` as a natural number; for any `n` the
value the code stores is `(n + 3) mod 256` resp. `(n + 4) mod 256`, which is `n + 3` resp.
`n + 4` exactly when that sum is below 256. -/
theorem length_byte_in_range (crc5 crc16_false : List Nat → Nat) (header : Nat)
    (data : List Nat) (hh : header < 256) :
    (header &&& 0x20 = 0 → data.length ≤ 250 →
      (frame_BM1370 crc5 crc16_false header data data.length)[3]? = some (data.length + 3)) ∧
    (header &&& 0x20 ≠ 0 → data.length ≤ 249 →
      (frame_BM1370 crc5 crc16_false header data data.length)[3]? = some (data.length + 4)) ∧
    (∀ n, header &&& 0x20 = 0 →
      length_field header n = (n + 3) % 256 ∧ (length_field header n = n + 3 ↔ n ≤ 252)) ∧
    (∀ n, header &&& 0x20 ≠ 0 →
      length_field header n = (n + 4) % 256 ∧ (length_field header n = n + 4 ↔ n ≤ 251)) := by
  refine ⟨fun hb hn => ?_, fun hb hn => ?_, fun n hb => ?_, fun n hb => ?_⟩
  · rw [frame_cmd crc5 crc16_false header data hh hb hn]
    simp
  · rw [frame_job crc5 crc16_false header data hh hb hn]
    simp
  · have hb2 : ¬ (header &&& TYPE_JOB ≠ 0) := fun h => h hb
    unfold length_field
    rw [if_neg hb2]
    refine ⟨rfl, ?_⟩
    constructor <;> intro h <;> omega
  · have hb2 : header &&& TYPE_JOB ≠ 0 := hb
    unfold length_field
    rw [if_pos hb2]
    refine ⟨rfl, ?_⟩
    constructor <;> intro h <;> omega

/-- Witness for C11 (amended): the length byte of a 6-byte register write is 9, that of
an 82-byte job is 86. -/
theorem length_byte_in_range_witness :
    (frame_BM1370 (fun _ => 0) (fun _ => 0) 0x51 [0x00, 0x08, 0x40, 0xA0, 0x02, 0x41] 6)[3]?
      = some 9 ∧
    (frame_BM1370 (fun _ => 0) (fun _ => 0) 0x21 (List.replicate 82 0) 82)[3]? = some 86 :=
  ⟨(length_byte_in_range (fun _ => 0) (fun _ => 0) 0x51 [0x00, 0x08, 0x40, 0xA0, 0x02, 0x41]
      (by decide)).1 (by decide) (by decide),
   (length_byte_in_range (fun _ => 0) (fun _ => 0) 0x21 (List.replicate 82 0)
      (by decide)).2.1 (by decide) (by decide)⟩

theorem decode_frame_cmd (crc5 crc16_false : List Nat → Nat) (header : Nat) (data : List Nat)
    (hh : header < 256) (hb : header &&& 0x20 = 0) (hn : data.length ≤ 250) :
    decode_frame (frame_BM1370 crc5 crc16_false header data data.length) = (header, data) := by
  rw [frame_cmd crc5 crc16_false header data hh hb hn]
  simp [decode_frame, hb]

theorem decode_frame_job (crc5 crc16_false : List Nat → Nat) (header : Nat) (data : List Nat)
    (hh : header < 256) (hb : header &&& 0x20 ≠ 0) (hn : data.length ≤ 249) :
    decode_frame (frame_BM1370 crc5 crc16_false header data data.length) = (header, data) := by
  rw [frame_job crc5 crc16_false header data hh hb hn]
  simp [decode_frame, hb]

theorem decode_frame_encode (crc5 crc16_false : List Nat → Nat) (header : Nat)
    (data : List Nat) (hh : header < 256) (hn : data.length ≤ 249) :
    decode_frame (frame_BM1370 crc5 crc16_false header data data.length) = (header, data) := by
  by_cases hb : header &&& 0x20 = 0
  · exact decode_frame_cmd crc5 crc16_false header data hh hb (by omega)
  · exact decode_frame_job crc5 crc16_false header data hh hb hn

/-- C12: framing round-trip for both packet shapes.  For header bytes and payloads of at
most 249 bytes, reading the frame built by `_send_BM1370` (header = byte 2, payload = the
bytes from offset 4, length byte minus 3 of them for a command and minus 4 for a job) gives
back the header and the payload; so two different (header, payload) pairs never give the
same frame. -/
theorem frame_round_trip (crc5 crc16_false : List Nat → Nat) (header : Nat) (data : List Nat)
    (header2 : Nat) (data2 : List Nat) (tx : List (List Nat))
    (hh : header < 256) (hn : data.length ≤ 249)
    (hh2 : header2 < 256) (hn2 : data2.length ≤ 249) :
    (∃ frame, _send_BM1370 crc5 crc16_false header data data.length tx = tx ++ [frame] ∧
      decode_frame frame = (header, data)) ∧
    (frame_BM1370 crc5 crc16_false header data data.length =
        frame_BM1370 crc5 crc16_false header2 data2 data2.length →
      header = header2 ∧ data = data2) := by
  refine ⟨⟨_, rfl, decode_frame_encode crc5 crc16_false header data hh hn⟩, fun heq => ?_⟩
  have h1 := decode_frame_encode crc5 crc16_false header data hh hn
  have h2 := decode_frame_encode crc5 crc16_false header2 data2 hh2 hn2
  rw [heq, h2] at h1
  exact ⟨(Prod.mk.inj h1).1.symm, (Prod.mk.inj h1).2.symm⟩

/-- Witness for C12: a set-address command and a job frame are read back unchanged. -/
theorem frame_round_trip_witness :
    (∃ frame, _send_BM1370 (fun _ => 0x1C) (fun _ => 0xBEEF) 0x40 [0x55, 0x00]
        [0x55, 0x00].length [] = [] ++ [frame] ∧
      decode_frame frame = (0x40, [0x55, 0x00])) ∧
    (frame_BM1370 (fun _ => 0x1C) (fun _ => 0xBEEF) 0x40 [0x55, 0x00] [0x55, 0x00].length =
        frame_BM1370 (fun _ => 0x1C) (fun _ => 0xBEEF) 0x21 [0x18, 0x01] [0x18, 0x01].length →
      0x40 = 0x21 ∧ [0x55, 0x00] = [0x18, 0x01]) :=
  frame_round_trip (fun _ => 0x1C) (fun _ => 0xBEEF) 0x40 [0x55, 0x00] 0x21 [0x18, 0x01] []
    (by decide) (by decide) (by decide) (by decide)

/-! ## Job frame -/

theorem writeBytes_zeros (pre src : List Nat) (off n k : Nat) (hoff : pre.length = off)
    (hn : n = src.length + k) :
    writeBytes (pre ++ List.replicate n 0) off src = pre ++ src ++ List.replicate k 0 := by
  subst hn
  rw [List.replicate_add, ← List.append_assoc]
  exact writeBytes_append pre _ _ src off hoff (by simp)

theorem job_bytes_eq (j : Nat) (w : bm_job) (hm : w.merkle_root_be.length = 32)
    (hp : w.prev_block_hash_be.length = 32) :
    BM1370_job_bytes j w =
      [j % 256, 0x01] ++ le32 w.starting_nonce ++ le32 w.target ++ le32 w.ntime ++
        w.merkle_root_be ++ w.prev_block_hash_be ++ le32 w.version := by
  have e0 : poke (poke (malloc 82) 0 j) 1 0x01 = [j % 256, 0x01] ++ List.replicate 80 0 := rfl
  have t1 : ∀ x, (le32 x).take 4 = le32 x := fun _ => rfl
  have t2 : w.merkle_root_be.take 32 = w.merkle_root_be :=
    List.take_of_length_le (by omega)
  have t3 : w.prev_block_hash_be.take 32 = w.prev_block_hash_be :=
    List.take_of_length_le (by omega)
  simp only [BM1370_job_bytes, memcpy, e0, t1, t2, t3]
  rw [writeBytes_zeros [j % 256, 0x01] (le32 w.starting_nonce) 2 80 76 rfl rfl,
    writeBytes_zeros ([j % 256, 0x01] ++ le32 w.starting_nonce) (le32 w.target) 6 76 72 rfl rfl,
    writeBytes_zeros ([j % 256, 0x01] ++ le32 w.starting_nonce ++ le32 w.target)
      (le32 w.ntime) 10 72 68 rfl rfl,
    writeBytes_zeros ([j % 256, 0x01] ++ le32 w.starting_nonce ++ le32 w.target ++
      le32 w.ntime) w.merkle_root_be 14 68 36 rfl (by omega),
    writeBytes_zeros ([j % 256, 0x01] ++ le32 w.starting_nonce ++ le32 w.target ++
      le32 w.ntime ++ w.merkle_root_be) w.prev_block_hash_be 46 36 4
      (by simp [le32, hm]) (by omega),
    writeBytes_zeros ([j % 256, 0x01] ++ le32 w.starting_nonce ++ le32 w.target ++
      le32 w.ntime ++ w.merkle_root_be ++ w.prev_block_hash_be) (le32 w.version) 78 4 0
      (by simp [le32, hm, hp]) rfl]
  simp

/-- C13, as stated, fails on the `nbits` field: for `example_job` (target `0x1705ae3a`) the
four bytes at payload offset 6 of the frame sent are `3a ae 05 17`, least significant byte
first, not the big-endian encoding `17 05 ae 3a`. -/
theorem send_work_fields_not_big_endian :
    (((BM1370_send_work (fun _ => 0) (fun _ => 0) State.initial example_job).tx.getD 0 []).drop
        (4 + 6)).take 4 = [0x3a, 0xae, 0x05, 0x17] ∧
    (((BM1370_send_work (fun _ => 0) (fun _ => 0) State.initial example_job).tx.getD 0 []).drop
        (4 + 6)).take 4 ≠ be32 example_job.target := by
  decide!

/-- C13 (amended): for a work unit (with its 32-byte merkle root and previous block hash)
the frame sent by `BM1370_send_work` is a job frame, header `0x21`, of 88 bytes with length
byte 86, whose 82-byte payload is, in order: job id, `num_midstates = 0x01`, the starting
nonce, the target and the ntime as 4 bytes each in the byte order of the memory of the
little-endian target (least significant byte first), the merkle root and the previous
block hash copied verbatim, and the version, least significant byte first. -/
theorem send_work_job_frame (crc5 crc16_false : List Nat → Nat) (st : State) (w : bm_job)
    (hm : w.merkle_root_be.length = 32) (hp : w.prev_block_hash_be.length = 32) :
    (BM1370_send_work crc5 crc16_false st w).tx =
      st.tx ++ [[0x55, 0xAA, 0x21, 86] ++
        ([(st.id + 24) % 128, 0x01] ++ le32 w.starting_nonce ++ le32 w.target ++
          le32 w.ntime ++ w.merkle_root_be ++ w.prev_block_hash_be ++ le32 w.version) ++
        [crc16_false (0x21 :: 86 ::
            ([(st.id + 24) % 128, 0x01] ++ le32 w.starting_nonce ++ le32 w.target ++
              le32 w.ntime ++ w.merkle_root_be ++ w.prev_block_hash_be ++ le32 w.version))
            % 65536 / 256,
          crc16_false (0x21 :: 86 ::
            ([(st.id + 24) % 128, 0x01] ++ le32 w.starting_nonce ++ le32 w.target ++
              le32 w.ntime ++ w.merkle_root_be ++ w.prev_block_hash_be ++ le32 w.version))
            % 256]] ∧
    ([(st.id + 24) % 128, 0x01] ++ le32 w.starting_nonce ++ le32 w.target ++
      le32 w.ntime ++ w.merkle_root_be ++ w.prev_block_hash_be ++ le32 w.version).length = 82 ∧
    ([0x55, 0xAA, 0x21, 86] ++
        ([(st.id + 24) % 128, 0x01] ++ le32 w.starting_nonce ++ le32 w.target ++
          le32 w.ntime ++ w.merkle_root_be ++ w.prev_block_hash_be ++ le32 w.version) ++
        [crc16_false (0x21 :: 86 ::
            ([(st.id + 24) % 128, 0x01] ++ le32 w.starting_nonce ++ le32 w.target ++
              le32 w.ntime ++ w.merkle_root_be ++ w.prev_block_hash_be ++ le32 w.version))
            % 65536 / 256,
          crc16_false (0x21 :: 86 ::
            ([(st.id + 24) % 128, 0x01] ++ le32 w.starting_nonce ++ le32 w.target ++
              le32 w.ntime ++ w.merkle_root_be ++ w.prev_block_hash_be ++ le32 w.version))
            % 256]).length = 88 := by
  have hlen : ([(st.id + 24) % 128, 0x01] ++ le32 w.starting_nonce ++ le32 w.target ++
      le32 w.ntime ++ w.merkle_root_be ++ w.prev_block_hash_be ++ le32 w.version).length
      = 82 := by
    simp [le32, hm, hp]
  have hj : (st.id + 24) % 128 % 256 % 256 = (st.id + 24) % 128 := by omega
  have hjob := job_bytes_eq ((st.id + 24) % 128 % 256) w hm hp
  rw [hj] at hjob
  have hframe := frame_job crc5 crc16_false 0x21
    ([(st.id + 24) % 128, 0x01] ++ le32 w.starting_nonce ++ le32 w.target ++
      le32 w.ntime ++ w.merkle_root_be ++ w.prev_block_hash_be ++ le32 w.version)
    (by norm_num) (by decide) (by omega)
  rw [hlen] at hframe
  refine ⟨?_, hlen, ?_⟩
  · show st.tx ++ [frame_BM1370 crc5 crc16_false (TYPE_JOB ||| GROUP_SINGLE ||| CMD_WRITE)
      (BM1370_job_bytes ((st.id + 24) % 128 % 256) w) 82] = _
    rw [hjob, show (TYPE_JOB ||| GROUP_SINGLE ||| CMD_WRITE) = 0x21 from by decide, hframe]
  · simp only [List.length_append, hlen]
    rfl

/-- Witness for C13 (amended): the frame sent for `example_job` from the start-up state. -/
theorem send_work_job_frame_witness :
    (BM1370_send_work (fun _ => 0) (fun _ => 0xBEEF) State.initial example_job).tx =
      [[0x55, 0xAA, 0x21, 86, 24, 0x01, 0, 0, 0, 0, 0x3a, 0xae, 0x05, 0x17,
        0xb5, 0x25, 0x70, 0x64] ++ List.replicate 32 0xAB ++ List.replicate 32 0xCD ++
        [0x00, 0x00, 0x00, 0x20, 0xBE, 0xEF]] :=
  (send_work_job_frame (fun _ => 0) (fun _ => 0xBEEF) State.initial example_job
    (by decide) (by decide)).1

/-! ## Identifier sequence from start-up -/

theorem send_ids_eq (crc5 crc16_false : List Nat → Nat) (ws : List bm_job) (st : State) :
    send_ids crc5 crc16_false st ws =
      (List.range ws.length).map (fun k => (st.id + 24 * (k + 1)) % 128) := by
  induction ws generalizing st with
  | nil => rfl
  | cons w ws ih =>
    simp only [send_ids, ih, send_work_id, List.length_cons, List.range_succ_eq_map,
      List.map_cons, List.map_map]
    refine congrArg₂ _ (by omega) ?_
    apply List.map_congr_left
    intro k _
    simp only [Function.comp]
    omega

/-- C14, as stated, fails: from the start-up state (counter 0) the first seven calls are
assigned 24, 48, 72, 96, 120, 16, 40, so the first identifier is 24, not 0, and the seventh
is 40, not 16. -/
theorem send_ids_do_not_start_at_zero :
    send_ids (fun _ => 0) (fun _ => 0) State.initial (List.replicate 7 example_job)
      = [24, 48, 72, 96, 120, 16, 40] ∧
    send_ids (fun _ => 0) (fun _ => 0) State.initial (List.replicate 7 example_job)
      ≠ [0, 24, 48, 72, 96, 120, 16] := by
  decide

/-- C14 (amended): starting from the start-up state (identifier counter 0), the `k`-th
`BM1370_send_work` call (`k = 1, 2, ..`) is assigned `(24 * k) mod 128`: the counter is
advanced before it is used, so the identifiers run 24, 48, 72, 96, 120, 16, 40, ..; the
first job gets 24 and the sixth gets 16. -/
theorem send_ids_from_start (crc5 crc16_false : List Nat → Nat) (ws : List bm_job) :
    send_ids crc5 crc16_false State.initial ws =
      (List.range ws.length).map (fun k => (24 * (k + 1)) % 128) ∧
    (∀ w1 w2 w3 w4 w5 w6 w7 : bm_job,
      send_ids crc5 crc16_false State.initial [w1, w2, w3, w4, w5, w6, w7]
        = [24, 48, 72, 96, 120, 16, 40]) := by
  have h : ∀ l : List bm_job, send_ids crc5 crc16_false State.initial l =
      (List.range l.length).map (fun k => (24 * (k + 1)) % 128) := by
    intro l
    rw [send_ids_eq]
    apply List.map_congr_left
    intro k _
    show (0 + 24 * (k + 1)) % 128 = _
    rw [Nat.zero_add]
  refine ⟨h ws, fun w1 w2 w3 w4 w5 w6 w7 => ?_⟩
  rw [h, show [w1, w2, w3, w4, w5, w6, w7].length = 7 from rfl]
  decide

/-! ## Chain initialisation -/

theorem register_loop_ends (crc5 crc16_false : List Nat → Nat) (n interval : Nat)
    (h255 : n ≤ 255) (fuel i : Nat) (tx : List (List Nat)) (hi : i ≤ n) (hfuel : n - i < fuel) :
    ∃ tx1, register_loop crc5 crc16_false n interval fuel i tx = some tx1 := by
  induction fuel generalizing i tx with
  | zero => omega
  | succ fuel ih =>
    unfold register_loop
    by_cases hlt : i < n
    · rw [if_pos hlt, Nat.mod_eq_of_lt (show i + 1 < 256 by omega)]
      exact ih (i + 1) _ hlt (by omega)
    · rw [if_neg hlt]
      exact ⟨tx, rfl⟩

theorem set_version_mask_frame (crc5 crc16_false : List Nat → Nat) (mask : Nat)
    (tx : List (List Nat)) :
    BM1370_set_version_mask crc5 crc16_false mask tx =
      tx ++ [[0x55, 0xAA, 0x51, 0x09, 0x00, 0xA4, 0x90, 0x00,
        ((mask % 4294967296) >>> 13 >>> 8) % 256, ((mask % 4294967296) >>> 13 &&& 0xFF) % 256,
        crc5 [0x51, 0x09, 0x00, 0xA4, 0x90, 0x00,
          ((mask % 4294967296) >>> 13 >>> 8) % 256,
          ((mask % 4294967296) >>> 13 &&& 0xFF) % 256] % 256]] := by
  have hf : frame_BM1370 crc5 crc16_false 0x51
      [0x00, 0xA4, 0x90, 0x00, ((mask % 4294967296) >>> 13 >>> 8) % 256,
        ((mask % 4294967296) >>> 13 &&& 0xFF) % 256] 6 = _ :=
    frame_cmd crc5 crc16_false 0x51 _ (by norm_num) (by decide) (by simp)
  simp only [BM1370_set_version_mask, _send_BM1370]
  rw [show (TYPE_CMD ||| GROUP_ALL ||| CMD_WRITE) = 0x51 from by decide, hf]
  rfl

/-- C15: `BM1370_init` fails exactly on an empty chain.  When enumeration reports zero
chips it returns 0 (on any fuel) having handed the transport only the three version-mask
frames and the chip-id read frame `55 AA 52 05 00 00 0A`; for a discovered chip count
`1 ≤ n ≤ 255` it ends (on any fuel above `n`) and returns `n`, which is not 0. -/
theorem init_return_value (crc5 crc16_false : List Nat → Nat) (mask : Nat)
    (get_difficulty_mask : Nat → List Nat)
    (do_frequency_transition :
      ℚ → (ℚ → List (List Nat) → List (List Nat)) → List (List Nat) → List (List Nat))
    (frequency difficulty : Nat) (tx : List (List Nat)) (n fuel : Nat)
    (h1 : 1 ≤ n) (h255 : n ≤ 255) (hfuel : n < fuel) :
    (∀ fuel0, BM1370_init crc5 crc16_false mask get_difficulty_mask do_frequency_transition
        0 frequency difficulty fuel0 tx =
      some (tx ++
        [[0x55, 0xAA, 0x51, 0x09, 0x00, 0xA4, 0x90, 0x00,
            ((mask % 4294967296) >>> 13 >>> 8) % 256,
            ((mask % 4294967296) >>> 13 &&& 0xFF) % 256,
            crc5 [0x51, 0x09, 0x00, 0xA4, 0x90, 0x00,
              ((mask % 4294967296) >>> 13 >>> 8) % 256,
              ((mask % 4294967296) >>> 13 &&& 0xFF) % 256] % 256],
          [0x55, 0xAA, 0x51, 0x09, 0x00, 0xA4, 0x90, 0x00,
            ((mask % 4294967296) >>> 13 >>> 8) % 256,
            ((mask % 4294967296) >>> 13 &&& 0xFF) % 256,
            crc5 [0x51, 0x09, 0x00, 0xA4, 0x90, 0x00,
              ((mask % 4294967296) >>> 13 >>> 8) % 256,
              ((mask % 4294967296) >>> 13 &&& 0xFF) % 256] % 256],
          [0x55, 0xAA, 0x51, 0x09, 0x00, 0xA4, 0x90, 0x00,
            ((mask % 4294967296) >>> 13 >>> 8) % 256,
            ((mask % 4294967296) >>> 13 &&& 0xFF) % 256,
            crc5 [0x51, 0x09, 0x00, 0xA4, 0x90, 0x00,
              ((mask % 4294967296) >>> 13 >>> 8) % 256,
              ((mask % 4294967296) >>> 13 &&& 0xFF) % 256] % 256],
          [0x55, 0xAA, 0x52, 0x05, 0x00, 0x00, 0x0A]], 0)) ∧
    (∃ tx1, BM1370_init crc5 crc16_false mask get_difficulty_mask do_frequency_transition
        n frequency difficulty fuel tx = some (tx1, n)) ∧
    n ≠ 0 := by
  refine ⟨fun fuel0 => ?_, ?_, by omega⟩
  · simp only [BM1370_init, if_true, set_version_mask_frame, _send_simple]
    have hbuf : (memcpy (malloc 7) 0 [0x55, 0xAA, 0x52, 0x05, 0x00, 0x00, 0x0A] 7).take 7
        = [0x55, 0xAA, 0x52, 0x05, 0x00, 0x00, 0x0A] := rfl
    rw [hbuf]
    simp
  · have hn0 : ¬ n = 0 := by omega
    simp only [BM1370_init, if_neg hn0]
    rw [address_loop_run crc5 crc16_false n h255 fuel 0 _ (Nat.zero_le _) (by omega)]
    simp only []
    obtain ⟨tx2, h2⟩ := register_loop_ends crc5 crc16_false n (address_interval n) h255 fuel 0
      (_send_BM1370 crc5 crc16_false (TYPE_CMD ||| GROUP_ALL ||| CMD_WRITE)
        [0x00, 0x58, 0x00, 0x01, 0x11, 0x11] 6
        (_send_BM1370 crc5 crc16_false (TYPE_CMD ||| GROUP_ALL ||| CMD_WRITE)
          (get_difficulty_mask difficulty) 6
          (_send_BM1370 crc5 crc16_false (TYPE_CMD ||| GROUP_ALL ||| CMD_WRITE)
            [0x00, 0x3C, 0x80, 0x00, 0x80, 0x0C] 6
            (_send_BM1370 crc5 crc16_false (TYPE_CMD ||| GROUP_ALL ||| CMD_WRITE)
              [0x00, 0x3C, 0x80, 0x00, 0x8B, 0x00] 6 _))))
      (Nat.zero_le _) (by omega)
    rw [h2]
    exact ⟨_, by rw [Nat.mod_eq_of_lt (show n < 256 by omega)]⟩

/-- Witness for C15: version mask `0x1fffe000`, one chip, frequency ramp switched off. -/
theorem init_return_value_witness :
    (∀ fuel0, BM1370_init (fun _ => 0x1C) (fun _ => 0) 0x1fffe000
        (fun _ => [0x00, 0x14, 0x00, 0x00, 0x00, 0xFF]) (fun f cb tx => cb f tx)
        0 0 256 fuel0 [] =
      some ([[0x55, 0xAA, 0x51, 0x09, 0x00, 0xA4, 0x90, 0x00, 0xFF, 0xFF, 0x1C],
          [0x55, 0xAA, 0x51, 0x09, 0x00, 0xA4, 0x90, 0x00, 0xFF, 0xFF, 0x1C],
          [0x55, 0xAA, 0x51, 0x09, 0x00, 0xA4, 0x90, 0x00, 0xFF, 0xFF, 0x1C],
          [0x55, 0xAA, 0x52, 0x05, 0x00, 0x00, 0x0A]], 0)) ∧
    (∃ tx1, BM1370_init (fun _ => 0x1C) (fun _ => 0) 0x1fffe000
        (fun _ => [0x00, 0x14, 0x00, 0x00, 0x00, 0xFF]) (fun f cb tx => cb f tx)
        1 0 256 2 [] = some (tx1, 1)) ∧
    1 ≠ 0 :=
  init_return_value (fun _ => 0x1C) (fun _ => 0) 0x1fffe000
    (fun _ => [0x00, 0x14, 0x00, 0x00, 0x00, 0xFF]) (fun f cb tx => cb f tx) 0 256 [] 1 2
    (by decide) (by decide) (by decide)

/-! ## Lock discipline -/

/-- C16 evaluated on the code: the send path writes its flag inside `lock .. unlock`, held
for that one store; the receive path reads `valid_jobs[job_id]` with no `lock` in the
steps of the call, for every state and every 11-byte record, so its trace breaks the lock
discipline. -/
theorem receive_path_reads_flag_unlocked (crc5 crc16_false : List Nat → Nat) (st : State)
    (w : bm_job) (p0 p1 n0 n1 n2 n3 m rid v0 v1 crc : Nat) :
    (∃ evs, (BM1370_send_work crc5 crc16_false st w).trace = st.trace ++ evs ∧
      lock_discipline LockState.unlocked evs = true) ∧
    (∃ evs,
      (BM1370_process_work st (some [p0, p1, n0, n1, n2, n3, m, rid, v0, v1, crc])).1.trace
        = st.trace ++ evs ∧
      Event.read_valid ((rid &&& 0xF0) >>> 1) ∈ evs ∧ Event.lock ∉ evs ∧
      lock_discipline LockState.unlocked evs = false) := by
  constructor
  · cases hs : st.active_jobs ((st.id + 24) % 128 % 256) with
    | none =>
      refine ⟨[Event.store ((st.id + 24) % 128 % 256) w, Event.lock,
        Event.write_valid ((st.id + 24) % 128 % 256) 1, Event.unlock], ?_, rfl⟩
      simp [BM1370_send_work, hs]
    | some p =>
      refine ⟨[Event.free p, Event.store ((st.id + 24) % 128 % 256) w, Event.lock,
        Event.write_valid ((st.id + 24) % 128 % 256) 1, Event.unlock], ?_, rfl⟩
      simp [BM1370_send_work, hs]
  · rw [process_work_some]
    refine ⟨[Event.log_result ((rid &&& 0xF0) >>> 1)
        (((ntohl (n0 + 256 * n1 + 65536 * n2 + 16777216 * n3) >>> 25) &&& 0x7f) % 256)
        ((rid &&& 0x0f) % 256) ((ntohs (v0 + 256 * v1) <<< 13) % 4294967296),
      Event.read_valid ((rid &&& 0xF0) >>> 1)], ?_, by simp, by simp, rfl⟩
    simp only []
    split
    · rfl
    · split <;> rfl

/-! ## Slot-table invariant -/

theorem send_work_keeps_invariant (crc5 crc16_false : List Nat → Nat) (st : State)
    (w : bm_job) (h : slots_cover_flags st) :
    slots_cover_flags (BM1370_send_work crc5 crc16_false st w) := by
  intro j hj
  by_cases hjk : j = (st.id + 24) % 128 % 256
  · subst hjk
    simp [BM1370_send_work]
  · have h1 : (BM1370_send_work crc5 crc16_false st w).active_jobs j = st.active_jobs j := by
      simp [BM1370_send_work, Function.update_noteq hjk]
    have h2 : (BM1370_send_work crc5 crc16_false st w).valid_jobs j = st.valid_jobs j := by
      simp [BM1370_send_work, Function.update_noteq hjk]
    rw [h1]
    rw [h2] at hj
    exact h j hj

theorem process_work_tables (st : State) (rx : Option (List Nat)) :
    (BM1370_process_work st rx).1.active_jobs = st.active_jobs ∧
    (BM1370_process_work st rx).1.valid_jobs = st.valid_jobs := by
  cases rx with
  | none => exact ⟨rfl, rfl⟩
  | some bytes =>
    simp only [BM1370_process_work]
    split
    · exact ⟨rfl, rfl⟩
    · split <;> exact ⟨rfl, rfl⟩

theorem run_keeps_invariant (crc5 crc16_false : List Nat → Nat) (ops : List Op) (st : State)
    (h : slots_cover_flags st) : slots_cover_flags (run crc5 crc16_false st ops) := by
  induction ops generalizing st with
  | nil => exact h
  | cons op ops ih =>
    apply ih
    cases op with
    | send w => exact send_work_keeps_invariant crc5 crc16_false st w h
    | process rx =>
      intro j hj
      have ht := process_work_tables st rx
      show (BM1370_process_work st rx).1.active_jobs j ≠ none
      rw [ht.1]
      have hj2 : (BM1370_process_work st rx).1.valid_jobs j ≠ 0 := hj
      rw [ht.2] at hj2
      exact h j hj2

theorem process_work_no_fault (st : State) (rx : Option (List Nat))
    (h : slots_cover_flags st) : (BM1370_process_work st rx).2 ≠ Outcome.fault := by
  cases rx with
  | none => simp [BM1370_process_work]
  | some bytes =>
    simp only [BM1370_process_work]
    split
    · simp
    · rename_i hz
      split
      · rename_i hs
        exact absurd hs (h _ hz)
      · simp

theorem process_work_index (st : State) (bytes : List Nat) :
    ∃ j, j < 128 ∧
      (BM1370_process_work st (some bytes)).1.trace.getLast? = some (Event.read_valid j) := by
  refine ⟨((rd8 (memcpy (malloc 11) 0 bytes 11) 7 &&& 0xf0) >>> 1) % 256, ?_, ?_⟩
  · have := extract_job_id_lt (rd8 (memcpy (malloc 11) 0 bytes 11) 7)
    omega
  · simp only [BM1370_process_work]
    split
    · simp
    · split <;> simp

/-- C17: from a state in which every validity flag is 0 and every slot is null, after any
sequence of `BM1370_send_work` calls (work units non-null) and `BM1370_process_work` calls
in any order, every job id whose flag is non-zero has a non-null slot; so a further
`BM1370_process_work` call never loads the version through a null slot, and the job id it
reads the flag of is below 128, as is the identifier a further `BM1370_send_work` call
indexes with. -/
theorem slot_table_invariant (crc5 crc16_false : List Nat → Nat) (st0 : State)
    (ops : List Op) (h0 : ∀ j, st0.valid_jobs j = 0 ∧ st0.active_jobs j = none) :
    slots_cover_flags (run crc5 crc16_false st0 ops) ∧
    (∀ rx, (BM1370_process_work (run crc5 crc16_false st0 ops) rx).2 ≠ Outcome.fault) ∧
    (∀ bytes, ∃ j, j < 128 ∧
      (BM1370_process_work (run crc5 crc16_false st0 ops) (some bytes)).1.trace.getLast?
        = some (Event.read_valid j)) ∧
    (∀ w, (BM1370_send_work crc5 crc16_false (run crc5 crc16_false st0 ops) w).id < 128) := by
  have hinit : slots_cover_flags st0 := fun j hj => absurd (h0 j).1 hj
  have hrun := run_keeps_invariant crc5 crc16_false ops st0 hinit
  refine ⟨hrun, fun rx => process_work_no_fault _ rx hrun, fun bytes => process_work_index _ bytes,
    fun w => ?_⟩
  rw [send_work_id]
  omega

/-- Witness for C17: from the start-up state, a send, a decode of the matching reply, a
failed receive and another send. -/
theorem slot_table_invariant_witness :
    slots_cover_flags (run (fun _ => 0) (fun _ => 0) State.initial
      [Op.send example_job,
        Op.process (some [0xAA, 0x55, 0x02, 0x00, 0x00, 0x00, 0x00, 0x31, 0x00, 0x04, 0x00]),
        Op.process none, Op.send example_job]) ∧
    (∀ rx, (BM1370_process_work (run (fun _ => 0) (fun _ => 0) State.initial
      [Op.send example_job,
        Op.process (some [0xAA, 0x55, 0x02, 0x00, 0x00, 0x00, 0x00, 0x31, 0x00, 0x04, 0x00]),
        Op.process none, Op.send example_job]) rx).2 ≠ Outcome.fault) ∧
    (∀ bytes, ∃ j, j < 128 ∧
      (BM1370_process_work (run (fun _ => 0) (fun _ => 0) State.initial
      [Op.send example_job,
        Op.process (some [0xAA, 0x55, 0x02, 0x00, 0x00, 0x00, 0x00, 0x31, 0x00, 0x04, 0x00]),
        Op.process none, Op.send example_job]) (some bytes)).1.trace.getLast?
        = some (Event.read_valid j)) ∧
    (∀ w, (BM1370_send_work (fun _ => 0) (fun _ => 0)
      (run (fun _ => 0) (fun _ => 0) State.initial
      [Op.send example_job,
        Op.process (some [0xAA, 0x55, 0x02, 0x00, 0x00, 0x00, 0x00, 0x31, 0x00, 0x04, 0x00]),
        Op.process none, Op.send example_job]) w).id < 128) :=
  slot_table_invariant (fun _ => 0) (fun _ => 0) State.initial _ (fun _ => ⟨rfl, rfl⟩)

/-! ## Job-id echo -/

theorem echo_small (mult s : Nat) (hm : mult < 16) (hs : s < 16) :
    ((8 * mult) <<< 1 ||| s) < 256 ∧
    ((((8 * mult) <<< 1 ||| s) &&& 0xF0) >>> 1 = 8 * mult) ∧
    (((8 * mult) <<< 1 ||| s) &&& 0x0F = s) := by
  have h : ∀ a < 16, ∀ b < 16, ((8 * a) <<< 1 ||| b) < 256 ∧
      ((((8 * a) <<< 1 ||| b) &&& 0xF0) >>> 1 = 8 * a) ∧
      (((8 * a) <<< 1 ||| b) &&& 0x0F = b) := by decide
  exact h mult hm s hs

theorem extract_multiple_of_8 (b : Nat) :
    ((b &&& 0xF0) >>> 1) % 8 = 0 ∧ (b &&& 0xF0) >>> 1 ≤ 120 := by
  have hb : b &&& 0xF0 = (b % 256) &&& 0xF0 := by
    rw [← Nat.and_pow_two_sub_one_eq_mod b 8, Nat.and_assoc]
    rfl
  have h : ∀ x < 256, ((x &&& 0xF0) >>> 1) % 8 = 0 ∧ (x &&& 0xF0) >>> 1 ≤ 120 := by decide!
  rw [hb]
  exact h (b % 256) (Nat.mod_lt _ (by norm_num))

theorem send_ids_multiple_of_8 (crc5 crc16_false : List Nat → Nat) (ws : List bm_job)
    (st : State) (hst : st.id % 8 = 0) (j : Nat) (hj : j ∈ send_ids crc5 crc16_false st ws) :
    j % 8 = 0 ∧ j < 128 := by
  rw [send_ids_eq] at hj
  obtain ⟨k, _, rfl⟩ := List.mem_map.mp hj
  omega

/-- C18: job-id echo round-trip.  Every identifier `j` assigned by `BM1370_send_work` (in
a run from the start-up state) is a multiple of 8 below 128; for such `j` and a small-core
number `s` in `0..15` the reply byte `(j << 1) | s` fits in 8 bits and the decoder's
extraction gives back `j = (byte & 0xF0) >> 1` and `s = byte & 0x0F`; and every job id the
decoder can extract is a multiple of 8 in `[0, 120]`. -/
theorem job_id_echo (crc5 crc16_false : List Nat → Nat) (ws : List bm_job) (j s : Nat)
    (hj : j ∈ send_ids crc5 crc16_false State.initial ws) (hs : s < 16) :
    (j % 8 = 0 ∧ j < 128) ∧
    (j <<< 1 ||| s) < 256 ∧
    ((j <<< 1 ||| s) &&& 0xF0) >>> 1 = j ∧
    (j <<< 1 ||| s) &&& 0x0F = s ∧
    (∀ b, ((b &&& 0xF0) >>> 1) % 8 = 0 ∧ (b &&& 0xF0) >>> 1 ≤ 120) := by
  have hmul := send_ids_multiple_of_8 crc5 crc16_false ws State.initial rfl j hj
  obtain ⟨mult, rfl⟩ : ∃ mult, j = 8 * mult := ⟨j / 8, by omega⟩
  have hm : mult < 16 := by omega
  obtain ⟨e1, e2, e3⟩ := echo_small mult s hm hs
  exact ⟨hmul, e1, e2, e3, extract_multiple_of_8⟩

/-- Witness for C18: the first identifier from start-up, 24, and small core 1 give the
reply byte `0x31`, which decodes to job id `0x18 = 24` and small core 1. -/
theorem job_id_echo_witness :
    (24 % 8 = 0 ∧ 24 < 128) ∧
    (24 <<< 1 ||| 1) < 256 ∧
    ((24 <<< 1 ||| 1) &&& 0xF0) >>> 1 = 24 ∧
    (24 <<< 1 ||| 1) &&& 0x0F = 1 ∧
    (∀ b, ((b &&& 0xF0) >>> 1) % 8 = 0 ∧ (b &&& 0xF0) >>> 1 ≤ 120) :=
  job_id_echo (fun _ => 0) (fun _ => 0) [example_job] 24 1 (by decide) (by decide)

/-! ## Period of the identifier sequence -/

theorem send_many_cons (crc5 crc16_false : List Nat → Nat) (st : State) (w : bm_job)
    (ws : List bm_job) :
    send_many crc5 crc16_false st (w :: ws) =
      send_many crc5 crc16_false (BM1370_send_work crc5 crc16_false st w) ws := rfl

theorem send_many_state_id (crc5 crc16_false : List Nat → Nat) (ws : List bm_job)
    (st : State) (hst : st.id < 128) :
    (send_many crc5 crc16_false st ws).id = (st.id + 24 * ws.length) % 128 := by
  cases ws with
  | nil =>
    show st.id = (st.id + 24 * 0) % 128
    omega
  | cons w ws => exact send_many_id crc5 crc16_false (w :: ws) st (by simp)

theorem send_work_other_slot (crc5 crc16_false : List Nat → Nat) (st : State) (w : bm_job)
    (j : Nat) (hj : (st.id + 24) % 128 ≠ j) :
    (BM1370_send_work crc5 crc16_false st w).active_jobs j = st.active_jobs j := by
  have hne : j ≠ (st.id + 24) % 128 % 256 := by omega
  simp [BM1370_send_work, Function.update_noteq hne]

theorem send_many_keeps_slot (crc5 crc16_false : List Nat → Nat) (ws : List bm_job)
    (st : State) (j : Nat)
    (h : ∀ i, 1 ≤ i → i ≤ ws.length → (st.id + 24 * i) % 128 ≠ j) :
    (send_many crc5 crc16_false st ws).active_jobs j = st.active_jobs j := by
  induction ws generalizing st with
  | nil => rfl
  | cons w ws ih =>
    rw [send_many_cons, ih, send_work_other_slot]
    · have := h 1 (by omega) (by simp)
      omega
    · intro i hi1 hi2
      rw [send_work_id]
      have := h (i + 1) (by omega) (by simp; omega)
      omega

theorem send_work_releases (crc5 crc16_false : List Nat → Nat) (st : State) (j : Nat)
    (w w1 : bm_job) (hid : (st.id + 24) % 128 % 256 = j) (hs : st.active_jobs j = some w) :
    (BM1370_send_work crc5 crc16_false st w1).trace =
      st.trace ++ [Event.free w, Event.store j w1, Event.lock, Event.write_valid j 1,
        Event.unlock] := by
  simp [BM1370_send_work, hid, hs]

theorem sixteen_ids_perm (crc5 crc16_false : List Nat → Nat) (st : State) (ws : List bm_job)
    (hst : st.id % 8 = 0) (hlen : ws.length = 16) :
    (send_ids crc5 crc16_false st ws).Perm ((List.range 16).map (fun q => 8 * q)) := by
  have hnodup : (send_ids crc5 crc16_false st ws).Nodup := by
    rw [send_ids_eq, hlen]
    apply List.Nodup.map_on _ (List.nodup_range 16)
    intro x hx y hy hxy
    have hx1 := List.mem_range.mp hx
    have hy1 := List.mem_range.mp hy
    omega
  have hsub : send_ids crc5 crc16_false st ws ⊆ (List.range 16).map (fun q => 8 * q) := by
    intro x hx
    obtain ⟨h8, h128⟩ := send_ids_multiple_of_8 crc5 crc16_false ws st hst x hx
    exact List.mem_map.mpr ⟨x / 8, List.mem_range.mpr (by omega), by omega⟩
  apply List.Subperm.perm_of_length_le (List.subperm_of_subset hnodup hsub)
  rw [send_ids_eq]
  simp [hlen]

/-- C20: the identifier sequence of `BM1370_send_work` has period exactly 16.  From a state
whose counter is a multiple of 8 (as it is from start-up on), 16 consecutive calls are
assigned 16 pairwise distinct identifiers, every multiple of 8 in `[0, 128)` once, and the
17th call is assigned the identifier of the 1st.  So the work unit stored by the 1st call
stays in its slot through the next 15 calls and is released by the 16th call after it,
before that call stores its own work unit. -/
theorem job_id_period_16 (crc5 crc16_false : List Nat → Nat) (st : State) (w : bm_job)
    (ws : List bm_job) (w17 : bm_job) (hst : st.id % 8 = 0) (hlen : ws.length = 15) :
    (send_ids crc5 crc16_false st (w :: ws)).Nodup ∧
    (send_ids crc5 crc16_false st (w :: ws)).Perm ((List.range 16).map (fun q => 8 * q)) ∧
    (send_many crc5 crc16_false st (w :: ws ++ [w17])).id =
      (BM1370_send_work crc5 crc16_false st w).id ∧
    (∀ k, k ≤ 15 →
      (send_many crc5 crc16_false (BM1370_send_work crc5 crc16_false st w)
          (ws.take k)).active_jobs (BM1370_send_work crc5 crc16_false st w).id = some w) ∧
    (BM1370_send_work crc5 crc16_false
        (send_many crc5 crc16_false (BM1370_send_work crc5 crc16_false st w) ws) w17).trace =
      (send_many crc5 crc16_false (BM1370_send_work crc5 crc16_false st w) ws).trace ++
        [Event.free w, Event.store (BM1370_send_work crc5 crc16_false st w).id w17, Event.lock,
          Event.write_valid (BM1370_send_work crc5 crc16_false st w).id 1, Event.unlock] := by
  have hperm := sixteen_ids_perm crc5 crc16_false st (w :: ws) hst (by simp [hlen])
  have hid1 : (BM1370_send_work crc5 crc16_false st w).id = (st.id + 24) % 128 :=
    send_work_id crc5 crc16_false st w
  have hslot1 : (BM1370_send_work crc5 crc16_false st w).active_jobs ((st.id + 24) % 128)
      = some w := by
    have hj : (st.id + 24) % 128 % 256 = (st.id + 24) % 128 := by omega
    simp [BM1370_send_work, hj]
  have hkeep : ∀ l : List bm_job, l.length ≤ 15 →
      (send_many crc5 crc16_false (BM1370_send_work crc5 crc16_false st w) l).active_jobs
        ((st.id + 24) % 128) = some w := by
    intro l hl
    rw [send_many_keeps_slot, hslot1]
    intro i hi1 hi2
    rw [hid1]
    omega
  refine ⟨?_, hperm, ?_, ?_, ?_⟩
  · exact hperm.nodup_iff.mpr
      (List.Nodup.map_on (fun x _ y _ hxy => by omega) (List.nodup_range 16))
  · rw [send_many_id crc5 crc16_false (w :: ws ++ [w17]) st (by simp), hid1]
    simp only [List.cons_append, List.length_cons, List.length_append, hlen, List.length_nil]
    omega
  · intro k hk
    rw [hid1]
    exact hkeep (ws.take k) (by simp [hlen])
  · have hid16 : (send_many crc5 crc16_false (BM1370_send_work crc5 crc16_false st w) ws).id
        = ((st.id + 24) % 128 + 24 * 15) % 128 := by
      rw [send_many_state_id crc5 crc16_false ws _ (by rw [hid1]; omega), hid1, hlen]
    have hnext : ((send_many crc5 crc16_false (BM1370_send_work crc5 crc16_false st w) ws).id
        + 24) % 128 % 256 = (st.id + 24) % 128 := by
      rw [hid16]
      omega
    have hs16 := hkeep ws (by omega)
    rw [hid1]
    exact send_work_releases crc5 crc16_false _ ((st.id + 24) % 128) w w17 hnext hs16

/-- Witness for C20: seventeen submissions from the start-up state. -/
theorem job_id_period_16_witness :
    send_ids (fun _ => 0) (fun _ => 0) State.initial (List.replicate 16 example_job)
      = [24, 48, 72, 96, 120, 16, 40, 64, 88, 112, 8, 32, 56, 80, 104, 0] ∧
    (send_many (fun _ => 0) (fun _ => 0) State.initial
      (example_job :: List.replicate 15 example_job ++ [example_job])).id = 24 :=
  ⟨by decide,
    (job_id_period_16 (fun _ => 0) (fun _ => 0) State.initial example_job
      (List.replicate 15 example_job) example_job (by decide) (by decide)).2.2.1⟩

/-! ## The divider search as the code computes it -/

theorem pll_found_f32_fb (t : ℚ) (c : Nat × Nat × Nat) (h : pll_accepts_f32 t c) :
    (pll_found_f32 t c).fb_divider = (temp_fb_divider_f32 t c.1 c.2.1 c.2.2).toNat ∧
    0xa0 ≤ (pll_found_f32 t c).fb_divider ∧ (pll_found_f32 t c).fb_divider ≤ 0xef ∧
    (((pll_found_f32 t c).fb_divider : Int) = temp_fb_divider_f32 t c.1 c.2.1 c.2.2) := by
  obtain ⟨_, ⟨hlo, hhi⟩, _⟩ := h
  simp only [pll_found_f32]
  omega

theorem pll_body_f32_initial (t : ℚ) (r p1 p2 : Nat) :
    pll_body_f32 t r p1 p2 PllState.initial =
      if pll_accepts_f32 t (r, p1, p2) then pll_found_f32 t (r, p1, p2)
      else PllState.initial := by
  unfold pll_body_f32 pll_accepts_f32
  by_cases h1 : p1 ≥ p2
  · by_cases h2 : temp_fb_divider_f32 t r p1 p2 ≥ 0xa0 ∧ temp_fb_divider_f32 t r p1 p2 ≤ 0xef
    · by_cases h3 : freq_diff_f32 t (temp_freq_f32 (temp_fb_divider_f32 t r p1 p2) r p1 p2)
          < max_diff
      · have h4 : freq_diff_f32 t (temp_freq_f32 (temp_fb_divider_f32 t r p1 p2) r p1 p2)
            < PllState.initial.min_difference := by
          have : PllState.initial.min_difference = 10 := rfl
          rw [this]
          unfold max_diff at h3
          linarith
        simp only [h1, h2, h3, h4, and_self, if_true, pll_found_f32]
      · simp [h1, h2, h3]
    · simp [h1, h2]
  · simp [h1]

theorem first_fit_f32_cases (t : ℚ) (cs : List (Nat × Nat × Nat)) :
    (first_fit_f32 t cs = PllState.initial ∧ ∀ c ∈ cs, ¬ pll_accepts_f32 t c) ∨
    ∃ pre c post, cs = pre ++ c :: post ∧ (∀ d ∈ pre, ¬ pll_accepts_f32 t d) ∧
      pll_accepts_f32 t c ∧ first_fit_f32 t cs = pll_found_f32 t c := by
  induction cs with
  | nil => exact Or.inl ⟨rfl, by simp⟩
  | cons c cs ih =>
    by_cases hc : pll_accepts_f32 t c
    · exact Or.inr ⟨[], c, cs, rfl, by simp, hc, by simp [first_fit_f32, hc]⟩
    · rcases ih with ⟨h0, hall⟩ | ⟨pre, d, post, hcs, hpre, hd, hfit⟩
      · refine Or.inl ⟨by simp [first_fit_f32, hc, h0], ?_⟩
        intro x hx
        rcases List.mem_cons.mp hx with rfl | hx
        · exact hc
        · exact hall x hx
      · refine Or.inr ⟨c :: pre, d, post, by simp [hcs], ?_, hd, by simp [first_fit_f32, hc, hfit]⟩
        intro x hx
        rcases List.mem_cons.mp hx with rfl | hx
        · exact hc
        · exact hpre x hx

theorem first_fit_f32_fb_zero_iff (t : ℚ) (cs : List (Nat × Nat × Nat)) :
    (first_fit_f32 t cs).fb_divider = 0 ↔ first_fit_f32 t cs = PllState.initial := by
  constructor
  · intro h
    rcases first_fit_f32_cases t cs with ⟨h0, _⟩ | ⟨pre, c, post, _, _, hc, hfit⟩
    · exact h0
    · rw [hfit] at h
      have := pll_found_f32_fb t c hc
      omega
  · intro h
    rw [h]
    rfl

theorem first_fit_f32_append (t : ℚ) (l1 l2 : List (Nat × Nat × Nat)) :
    first_fit_f32 t (l1 ++ l2) =
      if (first_fit_f32 t l1).fb_divider = 0 then first_fit_f32 t l2 else first_fit_f32 t l1 := by
  induction l1 with
  | nil => simp [first_fit_f32, PllState.initial]
  | cons c cs ih =>
    by_cases hc : pll_accepts_f32 t c
    · have := pll_found_f32_fb t c hc
      have hne : (pll_found_f32 t c).fb_divider ≠ 0 := by omega
      simp [first_fit_f32, hc, hne]
    · simp [first_fit_f32, hc, ih]

theorem loop_postdiv2_f32_found (t : ℚ) (r p1 k : Nat) (s : PllState) (h : s.fb_divider ≠ 0) :
    loop_postdiv2_f32 t r p1 k s = s := by
  cases k <;> simp [loop_postdiv2_f32, h]

theorem loop_postdiv1_f32_found (t : ℚ) (r k : Nat) (s : PllState) (h : s.fb_divider ≠ 0) :
    loop_postdiv1_f32 t r k s = s := by
  cases k <;> simp [loop_postdiv1_f32, h]

theorem loop_refdiv_f32_found (t : ℚ) (k : Nat) (s : PllState) (h : s.fb_divider ≠ 0) :
    loop_refdiv_f32 t k s = s := by
  cases k <;> simp [loop_refdiv_f32, h]

theorem loop_postdiv2_f32_eq (t : ℚ) (r p1 k : Nat) :
    loop_postdiv2_f32 t r p1 k PllState.initial =
      first_fit_f32 t ((countdown k).map fun p2 => (r, p1, p2)) := by
  induction k with
  | zero => rfl
  | succ k ih =>
    have h0 : PllState.initial.fb_divider = 0 := rfl
    simp only [loop_postdiv2_f32, h0, if_true, countdown, List.map_cons, first_fit_f32,
      pll_body_f32_initial]
    by_cases hc : pll_accepts_f32 t (r, p1, k + 1)
    · have := pll_found_f32_fb t _ hc
      simp only [if_pos hc]
      exact loop_postdiv2_f32_found t r p1 k _ (by omega)
    · simp only [if_neg hc]
      exact ih

theorem loop_postdiv1_f32_eq (t : ℚ) (r k : Nat) :
    loop_postdiv1_f32 t r k PllState.initial =
      first_fit_f32 t ((countdown k).flatMap fun p1 => (countdown 7).map fun p2 => (r, p1, p2)) := by
  induction k with
  | zero => rfl
  | succ k ih =>
    have h0 : PllState.initial.fb_divider = 0 := rfl
    rw [loop_postdiv1_f32, if_pos h0, show countdown (k + 1) = (k + 1) :: countdown k from rfl,
      List.flatMap_cons, first_fit_f32_append, loop_postdiv2_f32_eq]
    by_cases hz : (first_fit_f32 t ((countdown 7).map fun p2 => (r, k + 1, p2))).fb_divider = 0
    · rw [if_pos hz, (first_fit_f32_fb_zero_iff t _).mp hz]
      exact ih
    · rw [if_neg hz]
      exact loop_postdiv1_f32_found t r k _ hz

theorem loop_refdiv_f32_eq (t : ℚ) (k : Nat) :
    loop_refdiv_f32 t k PllState.initial =
      first_fit_f32 t ((countdown k).flatMap fun r => (countdown 7).flatMap fun p1 =>
        (countdown 7).map fun p2 => (r, p1, p2)) := by
  induction k with
  | zero => rfl
  | succ k ih =>
    have h0 : PllState.initial.fb_divider = 0 := rfl
    rw [loop_refdiv_f32, if_pos h0, show countdown (k + 1) = (k + 1) :: countdown k from rfl,
      List.flatMap_cons, first_fit_f32_append, loop_postdiv1_f32_eq]
    by_cases hz : (first_fit_f32 t ((countdown 7).flatMap fun p1 =>
        (countdown 7).map fun p2 => (k + 1, p1, p2))).fb_divider = 0
    · rw [if_pos hz, (first_fit_f32_fb_zero_iff t _).mp hz]
      exact ih
    · rw [if_neg hz]
      exact loop_refdiv_f32_found t k _ hz

theorem pll_search_f32_eq_first_fit (t : ℚ) : pll_search_f32 t = first_fit_f32 t pll_order :=
  loop_refdiv_f32_eq t 2

theorem pll_search_f32_cases (t : ℚ) :
    (pll_search_f32 t = PllState.initial ∧ ∀ c ∈ pll_order, ¬ pll_accepts_f32 t c) ∨
    ∃ pre c post, pll_order = pre ++ c :: post ∧ (∀ d ∈ pre, ¬ pll_accepts_f32 t d) ∧
      pll_accepts_f32 t c ∧ pll_search_f32 t = pll_found_f32 t c := by
  rw [pll_search_f32_eq_first_fit]
  exact first_fit_f32_cases t pll_order

theorem pll_search_f32_found (t : ℚ) (h : (pll_search_f32 t).fb_divider ≠ 0) :
    ∃ pre c post, pll_order = pre ++ c :: post ∧ (∀ d ∈ pre, ¬ pll_accepts_f32 t d) ∧
      pll_accepts_f32 t c ∧ pll_search_f32 t = pll_found_f32 t c := by
  rcases pll_search_f32_cases t with ⟨h0, _⟩ | hfound
  · rw [h0] at h
    exact absurd rfl h
  · exact hfound

theorem pll_search_f32_ranges (t : ℚ) (h : (pll_search_f32 t).fb_divider ≠ 0) :
    (0xA0 ≤ (pll_search_f32 t).fb_divider ∧ (pll_search_f32 t).fb_divider ≤ 0xEF) ∧
    ((pll_search_f32 t).ref_divider = 1 ∨ (pll_search_f32 t).ref_divider = 2) ∧
    (1 ≤ (pll_search_f32 t).post_divider1 ∧ (pll_search_f32 t).post_divider1 ≤ 7) ∧
    (1 ≤ (pll_search_f32 t).post_divider2 ∧ (pll_search_f32 t).post_divider2 ≤ 7) ∧
    (pll_search_f32 t).post_divider1 ≥ (pll_search_f32 t).post_divider2 := by
  obtain ⟨pre, c, post, hord, _, hc, hs⟩ := pll_search_f32_found t h
  have hmem : c ∈ pll_order := by
    rw [hord]
    simp
  obtain ⟨hr, hp1, hp2⟩ := (mem_pll_order c).mp hmem
  obtain ⟨hfb, hlo, hhi, hcast⟩ := pll_found_f32_fb t c hc
  obtain ⟨hge, _, _⟩ := hc
  rw [hs]
  refine ⟨⟨hlo, hhi⟩, ?_, hp1, hp2, hge⟩
  show c.1 = 1 ∨ c.1 = 2
  omega

theorem send_hash_frequency_f32_frame_of_found (crc5 crc16_false : List Nat → Nat) (target_freq : ℚ)
    (tx : List (List Nat)) (h : (pll_search_f32 target_freq).fb_divider ≠ 0) :
    BM1370_send_hash_frequency_f32 crc5 crc16_false target_freq tx =
      tx ++ [[0x55, 0xAA, 0x51, 0x09,
        0x00, 0x08,
        (if ((pll_search_f32 target_freq).fb_divider : ℚ) * 25 /
            ((pll_search_f32 target_freq).ref_divider : ℚ) ≥ 2400 then 0x50 else 0x40),
        (pll_search_f32 target_freq).fb_divider,
        (pll_search_f32 target_freq).ref_divider,
        (((pll_search_f32 target_freq).post_divider1 - 1) <<< 4) +
          ((pll_search_f32 target_freq).post_divider2 - 1),
        crc5 [0x51, 0x09, 0x00, 0x08,
          (if ((pll_search_f32 target_freq).fb_divider : ℚ) * 25 /
              ((pll_search_f32 target_freq).ref_divider : ℚ) ≥ 2400 then 0x50 else 0x40),
          (pll_search_f32 target_freq).fb_divider,
          (pll_search_f32 target_freq).ref_divider,
          (((pll_search_f32 target_freq).post_divider1 - 1) <<< 4) +
            ((pll_search_f32 target_freq).post_divider2 - 1)] % 256]] := by
  obtain ⟨⟨_, hfb⟩, href, hp1, hp2, _⟩ := pll_search_f32_ranges target_freq h
  simp only [BM1370_send_hash_frequency_f32, _send_BM1370]
  generalize pll_search_f32 target_freq = s at *
  have hfb256 : s.fb_divider % 256 = s.fb_divider := Nat.mod_eq_of_lt (by omega)
  have href256 : s.ref_divider % 256 = s.ref_divider := Nat.mod_eq_of_lt (by omega)
  have hcast : (((s.fb_divider * 25 : Nat) : ℚ) / (s.ref_divider : ℚ) ≥ 2400) ↔
      ((s.fb_divider : ℚ) * 25 / (s.ref_divider : ℚ) ≥ 2400) := by
    push_cast
    exact Iff.rfl
  simp only [if_neg h, poke, List.set_cons_succ, List.set_cons_zero, hfb256, href256,
    postdiv_byte _ _ hp1 hp2, hcast]
  have hhdr : (TYPE_CMD ||| GROUP_ALL ||| CMD_WRITE) = 0x51 := by decide
  rw [hhdr]
  by_cases hv : (s.fb_divider : ℚ) * 25 / (s.ref_divider : ℚ) ≥ 2400
  · have hf : frame_BM1370 crc5 crc16_false 0x51
        [0x00, 0x08, 0x50, s.fb_divider, s.ref_divider,
          ((s.post_divider1 - 1) <<< 4) + (s.post_divider2 - 1)] 6 =
        [0x55, 0xAA, 0x51, 0x09, 0x00, 0x08, 0x50, s.fb_divider, s.ref_divider,
          ((s.post_divider1 - 1) <<< 4) + (s.post_divider2 - 1),
          crc5 [0x51, 0x09, 0x00, 0x08, 0x50, s.fb_divider, s.ref_divider,
            ((s.post_divider1 - 1) <<< 4) + (s.post_divider2 - 1)] % 256] :=
      frame_cmd crc5 crc16_false 0x51 _ (by norm_num) (by decide) (by simp)
    simp only [if_pos hv, Nat.reduceMod, hf]
  · have hf : frame_BM1370 crc5 crc16_false 0x51
        [0x00, 0x08, 0x40, s.fb_divider, s.ref_divider,
          ((s.post_divider1 - 1) <<< 4) + (s.post_divider2 - 1)] 6 =
        [0x55, 0xAA, 0x51, 0x09, 0x00, 0x08, 0x40, s.fb_divider, s.ref_divider,
          ((s.post_divider1 - 1) <<< 4) + (s.post_divider2 - 1),
          crc5 [0x51, 0x09, 0x00, 0x08, 0x40, s.fb_divider, s.ref_divider,
            ((s.post_divider1 - 1) <<< 4) + (s.post_divider2 - 1)] % 256] :=
      frame_cmd crc5 crc16_false 0x51 _ (by norm_num) (by decide) (by simp)
    simp only [if_neg hv, hf]

theorem first_fit_f32_filter (t : ℚ) (cs : List (Nat × Nat × Nat)) :
    first_fit_f32 t cs =
      match cs.filter (fun c => decide (pll_accepts_f32 t c)) with
      | [] => PllState.initial
      | c :: _ => pll_found_f32 t c := by
  induction cs with
  | nil => rfl
  | cons c cs ih =>
    by_cases hc : pll_accepts_f32 t c
    · simp [first_fit_f32, hc, List.filter_cons]
    · simp [first_fit_f32, hc, List.filter_cons, ih]

theorem acceptable_combinations_f32_eq (t : ℚ) :
    acceptable_combinations_f32 t = pll_order.filter (fun c => decide (pll_accepts_f32 t c)) := by
  have hlist : (([2, 1] : List Nat).flatMap fun refdiv =>
      ([7, 6, 5, 4, 3, 2, 1] : List Nat).flatMap fun post1 =>
        ([7, 6, 5, 4, 3, 2, 1] : List Nat).map fun post2 => (refdiv, post1, post2))
      = pll_order := by decide
  unfold acceptable_combinations_f32
  rw [hlist]
  congr 1
  funext c
  apply decide_eq_decide.mpr
  unfold pll_accepts_f32 freq_diff_f32 max_diff
  constructor
  · rintro ⟨h1, h2, h3, h4⟩
    exact ⟨h1, ⟨h2, h3⟩, h4⟩
  · rintro ⟨h1, ⟨h2, h3⟩, h4⟩
    exact ⟨h1, h2, h3, h4⟩

theorem pll_search_f32_enumeration (t : ℚ) :
    pll_search_f32 t =
      match acceptable_combinations_f32 t with
      | [] => PllState.initial
      | c :: _ => pll_found_f32 t c := by
  rw [pll_search_f32_eq_first_fit, acceptable_combinations_f32_eq]
  exact first_fit_f32_filter t pll_order

theorem send_hash_frequency_f32_silent_iff (crc5 crc16_false : List Nat → Nat) (t : ℚ)
    (tx : List (List Nat)) :
    BM1370_send_hash_frequency_f32 crc5 crc16_false t tx = tx ↔
      (pll_search_f32 t).fb_divider = 0 := by
  constructor
  · intro h
    by_contra hne
    rw [send_hash_frequency_f32_frame_of_found crc5 crc16_false t tx hne] at h
    simp at h
  · intro h
    simp only [BM1370_send_hash_frequency_f32, h, if_true]

/-- The model with roundings at four inputs that are `float` values: at 200 and 53 MHz it
takes the combination exact arithmetic takes; at 347951/8192 MHz it takes feedback
divider 167 where exact arithmetic gives 166; at 15734101/32768 MHz it passes over
(2, 6, 1), whose exact difference 98303/98304 is below 1 but whose `float` difference is
exactly 1, and takes (2, 5, 1) with feedback divider `0xC0`. -/
theorem pll_search_f32_examples :
    (f32 200 = 200 ∧ (pll_search_f32 200).fb_divider = 0xE0 ∧
      (pll_search_f32 200).ref_divider = 2 ∧ (pll_search_f32 200).post_divider1 = 7 ∧
      (pll_search_f32 200).post_divider2 = 2) ∧
    (f32 53 = 53 ∧ (pll_search_f32 53).fb_divider = 208 ∧
      (pll_search_f32 53).ref_divider = 2 ∧ (pll_search_f32 53).post_divider1 = 7 ∧
      (pll_search_f32 53).post_divider2 = 7) ∧
    (f32 (347951 / 8192) = 347951 / 8192 ∧
      (pll_search_f32 (347951 / 8192)).fb_divider = 167 ∧
      c_round ((7 : ℚ) * 7 * (347951 / 8192) * 2 / 25) = 166) ∧
    (f32 (15734101 / 32768) = 15734101 / 32768 ∧
      (pll_search_f32 (15734101 / 32768)).fb_divider = 0xC0 ∧
      (pll_search_f32 (15734101 / 32768)).ref_divider = 2 ∧
      (pll_search_f32 (15734101 / 32768)).post_divider1 = 5 ∧
      (pll_search_f32 (15734101 / 32768)).post_divider2 = 1 ∧
      temp_fb_divider_f32 (15734101 / 32768) 2 6 1 = 230 ∧
      |(15734101 / 32768 : ℚ) - 25 * 230 / (2 * 6 * 1)| = 98303 / 98304 ∧
      freq_diff_f32 (15734101 / 32768) (temp_freq_f32 230 2 6 1) = 1) := by
  decide!

/-- C8, as stated, fails at 53 MHz: the code settles on feedback divider 208 with dividers
(2, 7, 7), 3/49 MHz off target, although the combination (2, 7, 6) has its feedback
divider 178 in range and is only 1/42 MHz off (and passes the test of the code as well). -/
theorem send_hash_frequency_not_global_minimum :
    (pll_search_f32 53).fb_divider ≠ 0 ∧
    pll_accepts_f32 53 (2, 7, 6) ∧
    ¬ (∀ r p1 p2 : Nat, (r = 1 ∨ r = 2) → 1 ≤ p2 → p2 ≤ p1 → p1 ≤ 7 →
        0xA0 ≤ c_round ((p1 : ℚ) * (p2 : ℚ) * 53 * (r : ℚ) / 25) →
        c_round ((p1 : ℚ) * (p2 : ℚ) * 53 * (r : ℚ) / 25) ≤ 0xEF →
        |(53 : ℚ) - 25 * (c_round ((p1 : ℚ) * (p2 : ℚ) * 53 * (r : ℚ) / 25) : ℚ) /
            ((r : ℚ) * (p1 : ℚ) * (p2 : ℚ))| < 1 →
        ¬ (|(53 : ℚ) - 25 * (c_round ((p1 : ℚ) * (p2 : ℚ) * 53 * (r : ℚ) / 25) : ℚ) /
              ((r : ℚ) * (p1 : ℚ) * (p2 : ℚ))| <
            |(53 : ℚ) - 25 * ((pll_search_f32 53).fb_divider : ℚ) /
              (((pll_search_f32 53).ref_divider : ℚ) *
                ((pll_search_f32 53).post_divider1 : ℚ) *
                ((pll_search_f32 53).post_divider2 : ℚ))|)) := by
  refine ⟨by decide!, by decide!, fun hall => ?_⟩
  exact hall 2 7 6 (Or.inr rfl) (by decide) (by decide) (by decide) (by decide!) (by decide!)
    (by decide!) (by decide!)

/-- C8 (amended): the search of `BM1370_send_hash_frequency` stops at the first
combination, in visiting order (reference divider 2 before 1, then post-divider-1
descending, then post-divider-2 descending), that passes the test of the code.  Whenever a
solution is found, no combination visited before the chosen one has its feedback divider
`round (float (post1 * post2 * target * refdiv) / 25)` in `[0xA0, 0xEF]` and its `float`
difference `|float (target - float (25 * fb / (refdiv * post1 * post2)))|` below 1.0, all
computed with the roundings of the code. -/
theorem send_hash_frequency_first_acceptable (target_freq : ℚ)
    (h : (pll_search_f32 target_freq).fb_divider ≠ 0) (r p1 p2 : Nat)
    (hr : r = 1 ∨ r = 2) (h1 : 1 ≤ p2) (h2 : p2 ≤ p1) (h3 : p1 ≤ 7)
    (hbefore : visited_before (r, p1, p2)
      ((pll_search_f32 target_freq).ref_divider, (pll_search_f32 target_freq).post_divider1,
        (pll_search_f32 target_freq).post_divider2)) :
    ¬ (0xA0 ≤ temp_fb_divider_f32 target_freq r p1 p2 ∧
        temp_fb_divider_f32 target_freq r p1 p2 ≤ 0xEF ∧
        |f32 (target_freq - temp_freq_f32 (temp_fb_divider_f32 target_freq r p1 p2) r p1 p2)|
          < 1) := by
  obtain ⟨pre, c, post, hord, hpre, _, hs⟩ := pll_search_f32_found target_freq h
  rw [hs] at hbefore
  have hmem : (r, p1, p2) ∈ pll_order :=
    (mem_pll_order (r, p1, p2)).mpr ⟨by omega, by simp only; omega, by simp only; omega⟩
  have hin := visited_before_in_front pre post c (r, p1, p2) hord hmem hbefore
  intro hacc
  exact hpre (r, p1, p2) hin ⟨h2, ⟨hacc.1, hacc.2.1⟩, hacc.2.2⟩

/-- Witness for C8 (amended): for 15734101/32768 MHz the code takes (2, 5, 1); the
combination (2, 6, 1), visited before it, does not pass the test of the code (its `float`
difference is exactly 1). -/
theorem send_hash_frequency_first_acceptable_witness :
    (pll_search_f32 (15734101 / 32768)).fb_divider ≠ 0 ∧
    visited_before (2, 6, 1)
      ((pll_search_f32 (15734101 / 32768)).ref_divider,
        (pll_search_f32 (15734101 / 32768)).post_divider1,
        (pll_search_f32 (15734101 / 32768)).post_divider2) ∧
    ¬ (0xA0 ≤ temp_fb_divider_f32 (15734101 / 32768) 2 6 1 ∧
        temp_fb_divider_f32 (15734101 / 32768) 2 6 1 ≤ 0xEF ∧
        |f32 ((15734101 / 32768 : ℚ) -
            temp_freq_f32 (temp_fb_divider_f32 (15734101 / 32768) 2 6 1) 2 6 1)| < 1) :=
  ⟨by decide!, by decide!,
    send_hash_frequency_first_acceptable (15734101 / 32768) (by decide!) 2 6 1 (Or.inr rfl)
      (by decide) (by decide) (by decide) (by decide!)⟩

/-- C19, as stated over exact arithmetic, fails on the code.  At 14300501/32768 MHz (a
`float` value) the code finds nothing and sends nothing although the exact enumeration is
not empty (it starts with (2, 6, 1)); at 347951/8192 MHz the code serialises feedback
divider 167 although the first combination of the exact enumeration, (2, 7, 7), has
`round (7 * 7 * target * 2 / 25) = 166`. -/
theorem send_hash_frequency_not_exact_enumeration :
    (f32 (14300501 / 32768) = 14300501 / 32768 ∧
      (pll_search_f32 (14300501 / 32768)).fb_divider = 0 ∧
      BM1370_send_hash_frequency_f32 (fun _ => 0) (fun _ => 0) (14300501 / 32768) [] = [] ∧
      (acceptable_combinations (14300501 / 32768)).head? = some (2, 6, 1) ∧
      acceptable_combinations (14300501 / 32768) ≠ []) ∧
    (f32 (347951 / 8192) = 347951 / 8192 ∧
      (pll_search_f32 (347951 / 8192)).fb_divider = 167 ∧
      (acceptable_combinations (347951 / 8192)).head? = some (2, 7, 7) ∧
      c_round ((7 : ℚ) * 7 * (347951 / 8192) * 2 / 25) = 166) := by
  decide!

/-- C19 (amended): `BM1370_send_hash_frequency` takes the first acceptable combination in
visiting order, not a searched optimum, where acceptance is evaluated with the roundings
of the code.  With the combinations enumerated as reference divider 2 then 1,
post-divider-1 from 7 down to 1, post-divider-2 from 7 down to 1, and only those kept that
have `post1 ≥ post2`, `fb = round (float (post1 * post2 * target * refdiv) / 25)` in
`[0xA0, 0xEF]` and `|float (target - float (25 * fb / (refdiv * post1 * post2)))| < 1`:
nothing is found and nothing is sent exactly when the enumeration is empty, and otherwise
the values found and serialised into the frame are those of its first combination. -/
theorem send_hash_frequency_first_of_enumeration (crc5 crc16_false : List Nat → Nat)
    (target : ℚ) (tx : List (List Nat)) :
    (acceptable_combinations_f32 target = [] ↔ (pll_search_f32 target).fb_divider = 0) ∧
    (acceptable_combinations_f32 target = [] ↔
      BM1370_send_hash_frequency_f32 crc5 crc16_false target tx = tx) ∧
    (∀ refdiv post1 post2 rest,
      acceptable_combinations_f32 target = (refdiv, post1, post2) :: rest →
      ((pll_search_f32 target).fb_divider : Int) =
          temp_fb_divider_f32 target refdiv post1 post2 ∧
      (pll_search_f32 target).ref_divider = refdiv ∧
      (pll_search_f32 target).post_divider1 = post1 ∧
      (pll_search_f32 target).post_divider2 = post2 ∧
      BM1370_send_hash_frequency_f32 crc5 crc16_false target tx =
        tx ++ [[0x55, 0xAA, 0x51, 0x09, 0x00, 0x08,
          (if ((pll_search_f32 target).fb_divider : ℚ) * 25 / (refdiv : ℚ) ≥ 2400
            then 0x50 else 0x40),
          (pll_search_f32 target).fb_divider, refdiv, ((post1 - 1) <<< 4) + (post2 - 1),
          crc5 [0x51, 0x09, 0x00, 0x08,
            (if ((pll_search_f32 target).fb_divider : ℚ) * 25 / (refdiv : ℚ) ≥ 2400
              then 0x50 else 0x40),
            (pll_search_f32 target).fb_divider, refdiv,
            ((post1 - 1) <<< 4) + (post2 - 1)] % 256]]) := by
  have hsearch := pll_search_f32_enumeration target
  have hhead : ∀ c rest, acceptable_combinations_f32 target = c :: rest →
      pll_accepts_f32 target c ∧ pll_search_f32 target = pll_found_f32 target c := by
    intro c rest hc
    have hmem : c ∈ acceptable_combinations_f32 target := by
      rw [hc]
      exact List.mem_cons_self _ _
    rw [acceptable_combinations_f32_eq] at hmem
    have hacc : pll_accepts_f32 target c := by
      simpa using (List.mem_filter.mp hmem).2
    rw [hc] at hsearch
    exact ⟨hacc, hsearch⟩
  have hempty : acceptable_combinations_f32 target = [] ↔
      (pll_search_f32 target).fb_divider = 0 := by
    constructor
    · intro he
      rw [he] at hsearch
      rw [hsearch]
      rfl
    · intro hz
      cases hc : acceptable_combinations_f32 target with
      | nil => rfl
      | cons c rest =>
        obtain ⟨hacc, hs⟩ := hhead c rest hc
        have := pll_found_f32_fb target c hacc
        rw [hs] at hz
        omega
  refine ⟨hempty, ?_, ?_⟩
  · rw [send_hash_frequency_f32_silent_iff]
    exact hempty
  · intro refdiv post1 post2 rest hc
    obtain ⟨hacc, hs⟩ := hhead (refdiv, post1, post2) rest hc
    obtain ⟨_, _, _, hcast⟩ := pll_found_f32_fb target (refdiv, post1, post2) hacc
    have hne : (pll_search_f32 target).fb_divider ≠ 0 := by
      intro hz
      rw [hempty.mpr hz] at hc
      exact List.noConfusion hc
    have hframe := send_hash_frequency_f32_frame_of_found crc5 crc16_false target tx hne
    have hr : (pll_search_f32 target).ref_divider = refdiv := by rw [hs]; rfl
    have hp1 : (pll_search_f32 target).post_divider1 = post1 := by rw [hs]; rfl
    have hp2 : (pll_search_f32 target).post_divider2 = post2 := by rw [hs]; rfl
    refine ⟨?_, hr, hp1, hp2, ?_⟩
    · rw [hs, hcast]
    · rw [hframe, hr, hp1, hp2]

/-- Check of C19 (amended) at three `float` inputs: at 200 MHz the enumeration starts with
(2, 7, 2), at 347951/8192 MHz with (2, 7, 7), and at 14300501/32768 MHz it is empty. -/
theorem acceptable_combinations_f32_heads :
    (acceptable_combinations_f32 200).head? = some (2, 7, 2) ∧
    (acceptable_combinations_f32 (347951 / 8192)).head? = some (2, 7, 7) ∧
    acceptable_combinations_f32 (14300501 / 32768) = [] := by
  decide!

end BM1370
